import Mathlib

/-!
Verification of the syslog listener (`app/monitors/syslog_listener.py`) against
its specification.  Strings are modelled as `List Char`; Python byte strings as
`List Nat`.  Every definition below is a direct shallow embedding of the Python
source, including the semantics of the regular expressions it uses under
`re.match` (in particular: `.` does not match a newline, and `$` matches at the
end of the string or just before one final trailing newline).
-/

/-- The exact set of characters CPython treats as whitespace in
`str.split(None)`, `str.lstrip()`, `str.isspace()` and the regex classes
`\s` / `\S` (verified exhaustively against CPython over all code points):
U+0009-U+000D, U+001C-U+0020, U+0085, U+00A0, U+1680, U+2000-U+200A,
U+2028, U+2029, U+202F, U+205F and U+3000. -/
def pyIsSpace (c : Char) : Bool :=
  (0x9 ≤ c.toNat && c.toNat ≤ 0xd) || (0x1c ≤ c.toNat && c.toNat ≤ 0x20) ||
  c.toNat == 0x85 || c.toNat == 0xa0 || c.toNat == 0x1680 ||
  (0x2000 ≤ c.toNat && c.toNat ≤ 0x200a) || c.toNat == 0x2028 || c.toNat == 0x2029 ||
  c.toNat == 0x202f || c.toNat == 0x205f || c.toNat == 0x3000

/-- The exact set of characters CPython's regex class `\d` matches on `str`
patterns: the Unicode category Nd (decimal digits), which falls into 66
value-aligned blocks of ten consecutive code points (verified exhaustively
against CPython over all code points: `\d` = Nd = the strings `int()`
accepts digit-wise). -/
def pyIsDigit (c : Char) : Bool :=
  (0x30 ≤ c.toNat && c.toNat ≤ 0x39) ||
  (0x660 ≤ c.toNat && c.toNat ≤ 0x669) ||
  (0x6f0 ≤ c.toNat && c.toNat ≤ 0x6f9) ||
  (0x7c0 ≤ c.toNat && c.toNat ≤ 0x7c9) ||
  (0x966 ≤ c.toNat && c.toNat ≤ 0x96f) ||
  (0x9e6 ≤ c.toNat && c.toNat ≤ 0x9ef) ||
  (0xa66 ≤ c.toNat && c.toNat ≤ 0xa6f) ||
  (0xae6 ≤ c.toNat && c.toNat ≤ 0xaef) ||
  (0xb66 ≤ c.toNat && c.toNat ≤ 0xb6f) ||
  (0xbe6 ≤ c.toNat && c.toNat ≤ 0xbef) ||
  (0xc66 ≤ c.toNat && c.toNat ≤ 0xc6f) ||
  (0xce6 ≤ c.toNat && c.toNat ≤ 0xcef) ||
  (0xd66 ≤ c.toNat && c.toNat ≤ 0xd6f) ||
  (0xde6 ≤ c.toNat && c.toNat ≤ 0xdef) ||
  (0xe50 ≤ c.toNat && c.toNat ≤ 0xe59) ||
  (0xed0 ≤ c.toNat && c.toNat ≤ 0xed9) ||
  (0xf20 ≤ c.toNat && c.toNat ≤ 0xf29) ||
  (0x1040 ≤ c.toNat && c.toNat ≤ 0x1049) ||
  (0x1090 ≤ c.toNat && c.toNat ≤ 0x1099) ||
  (0x17e0 ≤ c.toNat && c.toNat ≤ 0x17e9) ||
  (0x1810 ≤ c.toNat && c.toNat ≤ 0x1819) ||
  (0x1946 ≤ c.toNat && c.toNat ≤ 0x194f) ||
  (0x19d0 ≤ c.toNat && c.toNat ≤ 0x19d9) ||
  (0x1a80 ≤ c.toNat && c.toNat ≤ 0x1a89) ||
  (0x1a90 ≤ c.toNat && c.toNat ≤ 0x1a99) ||
  (0x1b50 ≤ c.toNat && c.toNat ≤ 0x1b59) ||
  (0x1bb0 ≤ c.toNat && c.toNat ≤ 0x1bb9) ||
  (0x1c40 ≤ c.toNat && c.toNat ≤ 0x1c49) ||
  (0x1c50 ≤ c.toNat && c.toNat ≤ 0x1c59) ||
  (0xa620 ≤ c.toNat && c.toNat ≤ 0xa629) ||
  (0xa8d0 ≤ c.toNat && c.toNat ≤ 0xa8d9) ||
  (0xa900 ≤ c.toNat && c.toNat ≤ 0xa909) ||
  (0xa9d0 ≤ c.toNat && c.toNat ≤ 0xa9d9) ||
  (0xa9f0 ≤ c.toNat && c.toNat ≤ 0xa9f9) ||
  (0xaa50 ≤ c.toNat && c.toNat ≤ 0xaa59) ||
  (0xabf0 ≤ c.toNat && c.toNat ≤ 0xabf9) ||
  (0xff10 ≤ c.toNat && c.toNat ≤ 0xff19) ||
  (0x104a0 ≤ c.toNat && c.toNat ≤ 0x104a9) ||
  (0x10d30 ≤ c.toNat && c.toNat ≤ 0x10d39) ||
  (0x11066 ≤ c.toNat && c.toNat ≤ 0x1106f) ||
  (0x110f0 ≤ c.toNat && c.toNat ≤ 0x110f9) ||
  (0x11136 ≤ c.toNat && c.toNat ≤ 0x1113f) ||
  (0x111d0 ≤ c.toNat && c.toNat ≤ 0x111d9) ||
  (0x112f0 ≤ c.toNat && c.toNat ≤ 0x112f9) ||
  (0x11450 ≤ c.toNat && c.toNat ≤ 0x11459) ||
  (0x114d0 ≤ c.toNat && c.toNat ≤ 0x114d9) ||
  (0x11650 ≤ c.toNat && c.toNat ≤ 0x11659) ||
  (0x116c0 ≤ c.toNat && c.toNat ≤ 0x116c9) ||
  (0x11730 ≤ c.toNat && c.toNat ≤ 0x11739) ||
  (0x118e0 ≤ c.toNat && c.toNat ≤ 0x118e9) ||
  (0x11950 ≤ c.toNat && c.toNat ≤ 0x11959) ||
  (0x11c50 ≤ c.toNat && c.toNat ≤ 0x11c59) ||
  (0x11d50 ≤ c.toNat && c.toNat ≤ 0x11d59) ||
  (0x11da0 ≤ c.toNat && c.toNat ≤ 0x11da9) ||
  (0x16a60 ≤ c.toNat && c.toNat ≤ 0x16a69) ||
  (0x16ac0 ≤ c.toNat && c.toNat ≤ 0x16ac9) ||
  (0x16b50 ≤ c.toNat && c.toNat ≤ 0x16b59) ||
  (0x1d7ce ≤ c.toNat && c.toNat ≤ 0x1d7d7) ||
  (0x1d7d8 ≤ c.toNat && c.toNat ≤ 0x1d7e1) ||
  (0x1d7e2 ≤ c.toNat && c.toNat ≤ 0x1d7eb) ||
  (0x1d7ec ≤ c.toNat && c.toNat ≤ 0x1d7f5) ||
  (0x1d7f6 ≤ c.toNat && c.toNat ≤ 0x1d7ff) ||
  (0x1e140 ≤ c.toNat && c.toNat ≤ 0x1e149) ||
  (0x1e2f0 ≤ c.toNat && c.toNat ≤ 0x1e2f9) ||
  (0x1e950 ≤ c.toNat && c.toNat ≤ 0x1e959) ||
  (0x1fbf0 ≤ c.toNat && c.toNat ≤ 0x1fbf9)

/-- The decimal value of a Unicode Nd digit: its offset inside its aligned
block (verified against CPython's `unicodedata.decimal` / `int()` for every
Nd character); 0 for non-digits, on which it is never used. -/
def pyDigitVal (c : Char) : Nat :=
  if 0x30 ≤ c.toNat && c.toNat ≤ 0x39 then c.toNat - 0x30
  else if 0x660 ≤ c.toNat && c.toNat ≤ 0x669 then c.toNat - 0x660
  else if 0x6f0 ≤ c.toNat && c.toNat ≤ 0x6f9 then c.toNat - 0x6f0
  else if 0x7c0 ≤ c.toNat && c.toNat ≤ 0x7c9 then c.toNat - 0x7c0
  else if 0x966 ≤ c.toNat && c.toNat ≤ 0x96f then c.toNat - 0x966
  else if 0x9e6 ≤ c.toNat && c.toNat ≤ 0x9ef then c.toNat - 0x9e6
  else if 0xa66 ≤ c.toNat && c.toNat ≤ 0xa6f then c.toNat - 0xa66
  else if 0xae6 ≤ c.toNat && c.toNat ≤ 0xaef then c.toNat - 0xae6
  else if 0xb66 ≤ c.toNat && c.toNat ≤ 0xb6f then c.toNat - 0xb66
  else if 0xbe6 ≤ c.toNat && c.toNat ≤ 0xbef then c.toNat - 0xbe6
  else if 0xc66 ≤ c.toNat && c.toNat ≤ 0xc6f then c.toNat - 0xc66
  else if 0xce6 ≤ c.toNat && c.toNat ≤ 0xcef then c.toNat - 0xce6
  else if 0xd66 ≤ c.toNat && c.toNat ≤ 0xd6f then c.toNat - 0xd66
  else if 0xde6 ≤ c.toNat && c.toNat ≤ 0xdef then c.toNat - 0xde6
  else if 0xe50 ≤ c.toNat && c.toNat ≤ 0xe59 then c.toNat - 0xe50
  else if 0xed0 ≤ c.toNat && c.toNat ≤ 0xed9 then c.toNat - 0xed0
  else if 0xf20 ≤ c.toNat && c.toNat ≤ 0xf29 then c.toNat - 0xf20
  else if 0x1040 ≤ c.toNat && c.toNat ≤ 0x1049 then c.toNat - 0x1040
  else if 0x1090 ≤ c.toNat && c.toNat ≤ 0x1099 then c.toNat - 0x1090
  else if 0x17e0 ≤ c.toNat && c.toNat ≤ 0x17e9 then c.toNat - 0x17e0
  else if 0x1810 ≤ c.toNat && c.toNat ≤ 0x1819 then c.toNat - 0x1810
  else if 0x1946 ≤ c.toNat && c.toNat ≤ 0x194f then c.toNat - 0x1946
  else if 0x19d0 ≤ c.toNat && c.toNat ≤ 0x19d9 then c.toNat - 0x19d0
  else if 0x1a80 ≤ c.toNat && c.toNat ≤ 0x1a89 then c.toNat - 0x1a80
  else if 0x1a90 ≤ c.toNat && c.toNat ≤ 0x1a99 then c.toNat - 0x1a90
  else if 0x1b50 ≤ c.toNat && c.toNat ≤ 0x1b59 then c.toNat - 0x1b50
  else if 0x1bb0 ≤ c.toNat && c.toNat ≤ 0x1bb9 then c.toNat - 0x1bb0
  else if 0x1c40 ≤ c.toNat && c.toNat ≤ 0x1c49 then c.toNat - 0x1c40
  else if 0x1c50 ≤ c.toNat && c.toNat ≤ 0x1c59 then c.toNat - 0x1c50
  else if 0xa620 ≤ c.toNat && c.toNat ≤ 0xa629 then c.toNat - 0xa620
  else if 0xa8d0 ≤ c.toNat && c.toNat ≤ 0xa8d9 then c.toNat - 0xa8d0
  else if 0xa900 ≤ c.toNat && c.toNat ≤ 0xa909 then c.toNat - 0xa900
  else if 0xa9d0 ≤ c.toNat && c.toNat ≤ 0xa9d9 then c.toNat - 0xa9d0
  else if 0xa9f0 ≤ c.toNat && c.toNat ≤ 0xa9f9 then c.toNat - 0xa9f0
  else if 0xaa50 ≤ c.toNat && c.toNat ≤ 0xaa59 then c.toNat - 0xaa50
  else if 0xabf0 ≤ c.toNat && c.toNat ≤ 0xabf9 then c.toNat - 0xabf0
  else if 0xff10 ≤ c.toNat && c.toNat ≤ 0xff19 then c.toNat - 0xff10
  else if 0x104a0 ≤ c.toNat && c.toNat ≤ 0x104a9 then c.toNat - 0x104a0
  else if 0x10d30 ≤ c.toNat && c.toNat ≤ 0x10d39 then c.toNat - 0x10d30
  else if 0x11066 ≤ c.toNat && c.toNat ≤ 0x1106f then c.toNat - 0x11066
  else if 0x110f0 ≤ c.toNat && c.toNat ≤ 0x110f9 then c.toNat - 0x110f0
  else if 0x11136 ≤ c.toNat && c.toNat ≤ 0x1113f then c.toNat - 0x11136
  else if 0x111d0 ≤ c.toNat && c.toNat ≤ 0x111d9 then c.toNat - 0x111d0
  else if 0x112f0 ≤ c.toNat && c.toNat ≤ 0x112f9 then c.toNat - 0x112f0
  else if 0x11450 ≤ c.toNat && c.toNat ≤ 0x11459 then c.toNat - 0x11450
  else if 0x114d0 ≤ c.toNat && c.toNat ≤ 0x114d9 then c.toNat - 0x114d0
  else if 0x11650 ≤ c.toNat && c.toNat ≤ 0x11659 then c.toNat - 0x11650
  else if 0x116c0 ≤ c.toNat && c.toNat ≤ 0x116c9 then c.toNat - 0x116c0
  else if 0x11730 ≤ c.toNat && c.toNat ≤ 0x11739 then c.toNat - 0x11730
  else if 0x118e0 ≤ c.toNat && c.toNat ≤ 0x118e9 then c.toNat - 0x118e0
  else if 0x11950 ≤ c.toNat && c.toNat ≤ 0x11959 then c.toNat - 0x11950
  else if 0x11c50 ≤ c.toNat && c.toNat ≤ 0x11c59 then c.toNat - 0x11c50
  else if 0x11d50 ≤ c.toNat && c.toNat ≤ 0x11d59 then c.toNat - 0x11d50
  else if 0x11da0 ≤ c.toNat && c.toNat ≤ 0x11da9 then c.toNat - 0x11da0
  else if 0x16a60 ≤ c.toNat && c.toNat ≤ 0x16a69 then c.toNat - 0x16a60
  else if 0x16ac0 ≤ c.toNat && c.toNat ≤ 0x16ac9 then c.toNat - 0x16ac0
  else if 0x16b50 ≤ c.toNat && c.toNat ≤ 0x16b59 then c.toNat - 0x16b50
  else if 0x1d7ce ≤ c.toNat && c.toNat ≤ 0x1d7d7 then c.toNat - 0x1d7ce
  else if 0x1d7d8 ≤ c.toNat && c.toNat ≤ 0x1d7e1 then c.toNat - 0x1d7d8
  else if 0x1d7e2 ≤ c.toNat && c.toNat ≤ 0x1d7eb then c.toNat - 0x1d7e2
  else if 0x1d7ec ≤ c.toNat && c.toNat ≤ 0x1d7f5 then c.toNat - 0x1d7ec
  else if 0x1d7f6 ≤ c.toNat && c.toNat ≤ 0x1d7ff then c.toNat - 0x1d7f6
  else if 0x1e140 ≤ c.toNat && c.toNat ≤ 0x1e149 then c.toNat - 0x1e140
  else if 0x1e2f0 ≤ c.toNat && c.toNat ≤ 0x1e2f9 then c.toNat - 0x1e2f0
  else if 0x1e950 ≤ c.toNat && c.toNat ≤ 0x1e959 then c.toNat - 0x1e950
  else if 0x1fbf0 ≤ c.toNat && c.toNat ≤ 0x1fbf9 then c.toNat - 0x1fbf0
  else 0

/-- Semantics of the Python regex tail `(.*)$` under `re.match` without
`re.DOTALL`: `.` cannot match `'\n'` and `$` matches at the end of the string
or just before a single trailing `'\n'`.  Hence the tail matches the remaining
input `rest` iff `rest` is newline-free (group = `rest`) or `rest` is a
newline-free string followed by exactly one final `'\n'` (group = `rest`
without that newline); otherwise the whole regex fails. -/
def matchDotStarEnd (rest : List Char) : Option (List Char) :=
  if rest.all (fun c => !(c == '\n')) then some rest
  else if rest.getLast? == some '\n' && rest.dropLast.all (fun c => !(c == '\n')) then
    some rest.dropLast
  else none

/-- Python `int()` on a non-empty string of Unicode decimal digits: the
base-10 fold of the per-character decimal values (`int()` accepts exactly
the Nd digits a `\d+` group can produce, so it never raises here). -/
def digitsToNat (ds : List Char) : Nat :=
  ds.foldl (fun n c => n * 10 + pyDigitVal c) 0

/-- `parse_syslog_pri` (syslog_listener.py lines 25-47): match
`r'^<(\d+)>(.*)$'`; on success return `(pri // 8, pri % 8, group 2)`, else
`(None, None, message)`.  The digit run is maximal (backtracking inside `\d+`
cannot help because the character after a shorter run would be a digit, which
can never match `>`), so it is computed with `takeWhile`. -/
def parse_syslog_pri (message : List Char) : Option Nat × Option Nat × List Char :=
  match message with
  | '<' :: rest =>
    let ds := rest.takeWhile pyIsDigit
    match rest.dropWhile pyIsDigit with
    | '>' :: rem =>
      if ds = [] then (none, none, message)
      else
        match matchDotStarEnd rem with
        | some g2 =>
          let pri := digitsToNat ds
          (some (pri / 8), some (pri % 8), g2)
        | none => (none, none, message)
    | _ => (none, none, message)
  | _ => (none, none, message)

/-- Python `s.split(None, maxsplit)`: strip leading whitespace; extract up to
`maxsplit` whitespace-delimited tokens; after the last split the remainder of
the string (with the separating whitespace run consumed but trailing
whitespace kept) becomes the final element. -/
def pySplitNone : Nat → List Char → List (List Char)
  | maxsplit, s =>
    let s' := s.dropWhile pyIsSpace
    if s' = [] then []
    else
      match maxsplit with
      | 0 => [s']
      | m + 1 =>
        (s'.takeWhile fun c => !pyIsSpace c) :: pySplitNone m (s'.dropWhile fun c => !pyIsSpace c)

/-- The bracket-depth scan of `parse_syslog_message` (lines 88-97): walk the
remainder, incrementing on `[` and decrementing on `]`; when the count returns
to `0` at a `]`, the result is that index plus one; if that never happens the
result is `0` (the initial value of `end_index`). -/
def bracketEndAux : List Char → Int → Nat → Nat
  | [], _, _ => 0
  | c :: rest, count, i =>
    if c = '[' then bracketEndAux rest (count + 1) (i + 1)
    else if c = ']' then
      if count - 1 = 0 then i + 1
      else bracketEndAux rest (count - 1) (i + 1)
    else bracketEndAux rest count (i + 1)

def bracketEnd (l : List Char) : Nat := bracketEndAux l 0 0

/-- The literal `"unknown"`. -/
def unknownS : List Char := ('u') :: ('n') :: ('k') :: ('n') :: ('o') :: ('w') :: ('n') :: []

/-- `parts[i] if parts[i] != "-" else "unknown"` (lines 76-77). -/
def dashSubst (field : List Char) : List Char :=
  if field = ['-'] then unknownS else field

/-- Handling of the RFC 5424 remainder field (structured data plus message,
lines 82-106): `"- "` prefix means nil structured data, drop two characters;
a leading `[` triggers the bracket-depth scan, after which the message is the
rest with leading whitespace stripped, or `""` if no matching close was found
(or the match ends exactly at the end of the string); otherwise the whole
remainder is the message. -/
def sdMessage (remainder : List Char) : List Char :=
  if remainder.take 2 = ['-', ' '] then remainder.drop 2
  else if remainder.head? = some '[' then
    let e := bracketEnd remainder
    if 0 < e && e < remainder.length then (remainder.drop e).dropWhile pyIsSpace
    else []
  else remainder

/-- `[A-Z]` (ASCII literal range in the pattern). -/
def isUpperAZ (c : Char) : Bool := 'A' ≤ c && c ≤ 'Z'

/-- `[a-z]` (ASCII literal range in the pattern). -/
def isLowerAZ (c : Char) : Bool := 'a' ≤ c && c ≤ 'z'

def notSpace (c : Char) : Bool := !pyIsSpace c

/-- `re.match(r'^([A-Z][a-z]{2}\s+\d{1,2}\s+\d{2}:\d{2}:\d{2})\s+(\S+)\s+(.*)$', m)`
(line 115), determinized.  Every `\s+` is followed by a character class
disjoint from whitespace (`\d`, `\S`) or by `(.*)$`, so each whitespace run is
forced maximal; `\d{1,2}` succeeds iff the maximal digit run has length 1 or 2
and is followed by whitespace (a shorter take would put a digit where
whitespace is required); `(\S+)` is forced maximal for the same reason, and the
final `(.*)$` applies to the input after the maximal whitespace run (giving it
a shorter run only prepends whitespace to a tail that already contains an
interior newline, so backtracking there can never succeed).  Returns
`(group 2, group 3) = (hostname, message_text)`; group 1, the timestamp, is
bound by the Python code but never used. -/
def rfc3164Match (msg : List Char) : Option (List Char × List Char) :=
  match msg with
  | c1 :: c2 :: c3 :: r0 =>
    if isUpperAZ c1 && isLowerAZ c2 && isLowerAZ c3 then
      let ws1 := r0.takeWhile pyIsSpace
      let r1 := r0.dropWhile pyIsSpace
      if ws1 = [] then none
      else
        let day := r1.takeWhile pyIsDigit
        let r2 := r1.dropWhile pyIsDigit
        if day.length = 0 || 2 < day.length then none
        else
          let ws2 := r2.takeWhile pyIsSpace
          let r3 := r2.dropWhile pyIsSpace
          if ws2 = [] then none
          else
            match r3 with
            | h1 :: h2 :: cA :: m1 :: m2 :: cB :: s1 :: s2 :: r4 =>
              if pyIsDigit h1 && pyIsDigit h2 && cA == ':' && pyIsDigit m1 && pyIsDigit m2
                  && cB == ':' && pyIsDigit s1 && pyIsDigit s2 then
                let ws3 := r4.takeWhile pyIsSpace
                let r5 := r4.dropWhile pyIsSpace
                if ws3 = [] then none
                else
                  let host := r5.takeWhile notSpace
                  let r6 := r5.dropWhile notSpace
                  if host = [] then none
                  else
                    let ws4 := r6.takeWhile pyIsSpace
                    let r7 := r6.dropWhile pyIsSpace
                    if ws4 = [] then none
                    else
                      match matchDotStarEnd r7 with
                      | some g3 => some (host, g3)
                      | none => none
              else none
            | _ => none
    else none
  | _ => none

/-- The tail `:\s*(.*)$` of the app-name pattern, applied after the colon:
`\s*` greedily eats the whitespace run and `(.*)$` must match what is left
(giving `\s*` a shorter run only prepends whitespace to a tail whose interior
newline persists, so it never rescues a failed match). -/
def appFinish (app : List Char) (afterColon : List Char) : Option (List Char × List Char) :=
  (matchDotStarEnd (afterColon.dropWhile pyIsSpace)).map (fun g2 => (app, g2))

/-- One attempt of `re.match(r'^(\S+?)(?:\[\d+\])?:\s*(.*)$', text)` (line 123)
at a fixed length of the lazy group `(\S+?)`: `rest` is the input after the
candidate app token.  The optional group is tried first: `[`, a maximal
non-empty digit run, `]`, then `:`.  If the option cannot be completed the
bare `:` must be the very next character; `[` and `:` are distinct, so the two
alternatives never overlap. -/
def appTryComplete (app : List Char) (rest : List Char) : Option (List Char × List Char) :=
  match rest with
  | '[' :: r2 =>
    let ds := r2.takeWhile pyIsDigit
    if ds = [] then none
    else
      match r2.dropWhile pyIsDigit with
      | ']' :: ':' :: r3 => appFinish app r3
      | _ => none
  | ':' :: r3 => appFinish app r3
  | _ => none

/-- The lazy search of `(\S+?)`: try the shortest candidate first, extending
one non-whitespace character at a time; a whitespace character (or the end of
the input) stops the search with an overall failure. -/
def appMatchGo (accRev : List Char) : List Char → Option (List Char × List Char)
  | [] => none
  | c :: rest =>
    if pyIsSpace c then none
    else
      match appTryComplete (c :: accRev).reverse rest with
      | some res => some res
      | none => appMatchGo (c :: accRev) rest

def appMatch (text : List Char) : Option (List Char × List Char) :=
  appMatchGo [] text

/-- `parse_syslog_message` (lines 50-134): RFC 5424 if the PRI-stripped
message starts with `"1 "` (split into at most 7 fields, `-` fields replaced
by `"unknown"`, structured data handled by `sdMessage`; fewer than 7 fields is
malformed and returns the input as the message); otherwise try the RFC 3164
regex, extracting an app name from the message text when the app pattern
matches; otherwise `("unknown", "unknown", msg)`. -/
def parse_syslog_message (msg : List Char) : List Char × List Char × List Char :=
  if msg.take 2 = ['1', ' '] then
    let parts := pySplitNone 6 msg
    if 7 ≤ parts.length then
      (dashSubst (parts.getD 2 []), dashSubst (parts.getD 3 []), sdMessage (parts.getD 6 []))
    else (unknownS, unknownS, msg)
  else
    match rfc3164Match msg with
    | some (host, text) =>
      match appMatch text with
      | some (app, m) => (host, app, m)
      | none => (host, unknownS, text)
    | none => (unknownS, unknownS, msg)

/-- The `SEVERITY_NAMES` dict (lines 10-19), as the partial lookup
`SEVERITY_NAMES.get`. -/
def SEVERITY_NAMES : Nat → Option (List Char)
  | 0 => some (("Emergency").toList)
  | 1 => some (("Alert").toList)
  | 2 => some (("Critical").toList)
  | 3 => some (("Error").toList)
  | 4 => some (("Warning").toList)
  | 5 => some (("Notice").toList)
  | 6 => some (("Informational").toList)
  | 7 => some (("Debug").toList)
  | _ => none

/-- `HIGH_SEVERITY = [0, 1, 2, 3]` (line 22). -/
def HIGH_SEVERITY : List Nat := [0, 1, 2, 3]

/-- `severity is not None and severity in HIGH_SEVERITY` (line 204). -/
def isHighSeverity : Option Nat → Bool
  | none => false
  | some s => HIGH_SEVERITY.contains s

/-- `SEVERITY_NAMES.get(severity, "Unknown") if severity is not None else
"Unknown"` (line 185). -/
def severityName : Option Nat → List Char
  | none => ("Unknown").toList
  | some s => (SEVERITY_NAMES s).getD (("Unknown").toList)

/-- The aggregate shared state the listener maintains:
`state['stats']['syslog_count']` and `state['recent_alerts']`. -/
structure AggState (α : Type) where
  syslog_count : Nat
  recent_alerts : List α
deriving DecidableEq

/-- `if len(alerts) > 100: alerts = alerts[-100:]` (lines 208-209). -/
def truncAlerts {α : Type} (xs : List α) : List α :=
  if 100 < xs.length then xs.drop (xs.length - 100) else xs

/-- The last `n` elements of a list. -/
def lastN {α : Type} (n : Nat) (xs : List α) : List α := xs.drop (xs.length - n)

/-- The commit performed under the state lock (lines 199-209): increment the
counter unconditionally; if the severity is high, append the entry and keep
only the last 100 alerts. -/
def commit {α : Type} (severity : Option Nat) (entry : α) (s : AggState α) : AggState α :=
  let s1 : AggState α := ⟨s.syslog_count + 1, s.recent_alerts⟩
  if isHighSeverity severity then ⟨s1.syslog_count, truncAlerts (s1.recent_alerts ++ [entry])⟩
  else s1

/-- A sequence of commits, oldest first. -/
def commitAll {α : Type} (l : List (Option Nat × α)) (s : AggState α) : AggState α :=
  l.foldl (fun st p => commit p.1 p.2 st) s

/-- A UTF-8 continuation byte `0x80..0xBF`. -/
def isCont (b : Nat) : Bool := 0x80 ≤ b && b ≤ 0xBF

/-- Valid second byte for a given 3- or 4-byte lead byte, per the UTF-8
well-formedness table the CPython decoder enforces (no overlong forms, no
surrogates, nothing above U+10FFFF). -/
def utf8Valid2 (lead b2 : Nat) : Bool :=
  if lead = 0xE0 then 0xA0 ≤ b2 && b2 ≤ 0xBF
  else if lead = 0xED then 0x80 ≤ b2 && b2 ≤ 0x9F
  else if lead = 0xF0 then 0x90 ≤ b2 && b2 ≤ 0xBF
  else if lead = 0xF4 then 0x80 ≤ b2 && b2 ≤ 0x8F
  else isCont b2

/-- `bytes.decode('utf-8')` (line 172): strict UTF-8, `none` models the
`UnicodeDecodeError`. -/
def utf8DecodeStrict : List Nat → Option (List Char)
  | [] => some []
  | b :: rest =>
    if b ≤ 0x7F then (utf8DecodeStrict rest).map (fun cs => Char.ofNat b :: cs)
    else if 0xC2 ≤ b && b ≤ 0xDF then
      match rest with
      | b2 :: rest2 =>
        if isCont b2 then
          (utf8DecodeStrict rest2).map
            (fun cs => Char.ofNat ((b - 0xC0) * 0x40 + (b2 - 0x80)) :: cs)
        else none
      | [] => none
    else if 0xE0 ≤ b && b ≤ 0xEF then
      match rest with
      | b2 :: b3 :: rest3 =>
        if utf8Valid2 b b2 && isCont b3 then
          (utf8DecodeStrict rest3).map
            (fun cs => Char.ofNat (((b - 0xE0) * 0x40 + (b2 - 0x80)) * 0x40 + (b3 - 0x80)) :: cs)
        else none
      | _ => none
    else if 0xF0 ≤ b && b ≤ 0xF4 then
      match rest with
      | b2 :: b3 :: b4 :: rest4 =>
        if utf8Valid2 b b2 && isCont b3 && isCont b4 then
          (utf8DecodeStrict rest4).map
            (fun cs =>
              Char.ofNat ((((b - 0xF0) * 0x40 + (b2 - 0x80)) * 0x40 + (b3 - 0x80)) * 0x40 + (b4 - 0x80)) :: cs)
        else none
      | _ => none
    else none

/-- `bytes.decode('utf-8', errors='ignore')` (line 175): on an error the
decoder discards the offending sequence and resumes at the first byte that
could not extend it.  Since a valid continuation byte is never a valid start
byte, resuming is equivalent to skipping one byte at a time, which is how the
failure branches below are written. -/
def utf8DecodeIgnore : List Nat → List Char
  | [] => []
  | b :: rest =>
    if b ≤ 0x7F then Char.ofNat b :: utf8DecodeIgnore rest
    else if 0xC2 ≤ b && b ≤ 0xDF then
      match rest with
      | b2 :: rest2 =>
        if isCont b2 then Char.ofNat ((b - 0xC0) * 0x40 + (b2 - 0x80)) :: utf8DecodeIgnore rest2
        else utf8DecodeIgnore (b2 :: rest2)
      | [] => []
    else if 0xE0 ≤ b && b ≤ 0xEF then
      match rest with
      | b2 :: rest2 =>
        if utf8Valid2 b b2 then
          match rest2 with
          | b3 :: rest3 =>
            if isCont b3 then
              Char.ofNat (((b - 0xE0) * 0x40 + (b2 - 0x80)) * 0x40 + (b3 - 0x80)) :: utf8DecodeIgnore rest3
            else utf8DecodeIgnore (b3 :: rest3)
          | [] => []
        else utf8DecodeIgnore (b2 :: rest2)
      | [] => []
    else if 0xF0 ≤ b && b ≤ 0xF4 then
      match rest with
      | b2 :: rest2 =>
        if utf8Valid2 b b2 then
          match rest2 with
          | b3 :: rest3 =>
            if isCont b3 then
              match rest3 with
              | b4 :: rest4 =>
                if isCont b4 then
                  Char.ofNat ((((b - 0xF0) * 0x40 + (b2 - 0x80)) * 0x40 + (b3 - 0x80)) * 0x40 + (b4 - 0x80)) :: utf8DecodeIgnore rest4
                else utf8DecodeIgnore (b4 :: rest4)
              | [] => []
            else utf8DecodeIgnore (b3 :: rest3)
          | [] => []
        else utf8DecodeIgnore (b2 :: rest2)
      | [] => []
    else utf8DecodeIgnore rest
termination_by l => l.length
decreasing_by all_goals (simp_wf; try omega)

/-- The decode step of the ingest loop (lines 171-175): strict UTF-8 first,
falling back to `errors='ignore'` when that raises. -/
def pyDecode (bytes : List Nat) : List Char :=
  match utf8DecodeStrict bytes with
  | some s => s
  | none => utf8DecodeIgnore bytes

/-- The `log_entry` dict (lines 187-196). -/
structure LogEntry where
  timestamp : List Char
  source : List Char
  hostname : List Char
  app_name : List Char
  facility : Option Nat
  severity : Option Nat
  severity_name : List Char
  message : List Char
deriving DecidableEq

/-- Construction of the log entry for one decoded message (lines 178-196);
the timestamp and source address are environment inputs. -/
def buildEntry (timestamp source : List Char) (message : List Char) : LogEntry :=
  let p := parse_syslog_pri message
  let q := parse_syslog_message p.2.2
  { timestamp := timestamp, source := source, hostname := q.1, app_name := q.2.1,
    facility := p.1, severity := p.2.1, severity_name := severityName p.2.1,
    message := q.2.2 }

/-- One received datagram: receipt timestamp, sender address and raw payload
bytes. -/
structure Datagram where
  timestamp : List Char
  source : List Char
  payload : List Nat

/-- The per-datagram body of the receive loop (lines 168-209): decode, parse,
classify, commit. -/
def processDatagram (d : Datagram) (s : AggState LogEntry) : AggState LogEntry :=
  let entry := buildEntry d.timestamp d.source (pyDecode d.payload)
  commit entry.severity entry s

/-- The receive loop over a finite trace of datagrams. -/
def runLoop (ds : List Datagram) (s : AggState LogEntry) : AggState LogEntry :=
  ds.foldl (fun st d => processDatagram d st) s

/-- The shared dict as the listener sees it (keys `'stats'` — itself a dict
with `'syslog_count'` and possibly other entries — and `'recent_alerts'`,
plus arbitrary other top-level entries, modelled as association data). -/
structure SharedDict (α : Type) where
  stats_present : Bool
  stats_syslog_count : Option Nat
  stats_other : List (List Char × Nat)
  recent_alerts : Option (List α)
  other : List (List Char × Nat)
deriving DecidableEq

/-- The startup block under the state lock (lines 156-162): create `'stats'`
if missing, set `state['stats']['syslog_count'] = 0` unconditionally, create
`'recent_alerts'` as `[]` only if missing. -/
def initListenerState {α : Type} (s : SharedDict α) : SharedDict α :=
  { stats_present := true
    stats_syslog_count := some 0
    stats_other := s.stats_other
    recent_alerts := some (s.recent_alerts.getD [])
    other := s.other }

/-- Position of one committing thread inside the protocol
`with state_lock(): count += 1; alerts.append(e); truncate`: the counter
update is a read followed by a write of the read value plus one, the two
Python byte-code steps the lock makes atomic. -/
inductive CommitPhase where
  | start
  | preRead
  | postRead (r : Nat)
  | postWrite
  | postAppend
  | done
deriving DecidableEq

/-- Phases strictly inside the critical section (between acquire and release). -/
def inCrit : CommitPhase → Bool
  | .start => false
  | .done => false
  | _ => true

/-- The counter write of this thread has happened. -/
def phaseWritten : CommitPhase → Bool
  | .postWrite => true
  | .postAppend => true
  | .done => true
  | _ => false

/-- The append of this thread has happened. -/
def phaseAppended : CommitPhase → Bool
  | .postAppend => true
  | .done => true
  | _ => false

/-- Global configuration: the `threading.Lock` (holder, if any), each
thread's phase, and the shared counter and alert list. -/
structure LockConfig (n : Nat) where
  lock : Option (Fin n)
  phase : Fin n → CommitPhase
  count : Nat
  alerts : List Nat

/-- Number of threads whose counter write has happened. -/
def countWritten (n : Nat) (ph : Fin n → CommitPhase) : Nat :=
  Finset.sum Finset.univ (fun t => if phaseWritten (ph t) then 1 else 0)

/-- Interleaving semantics of `n` committing threads with entries
`entryOf`.  Only `acquire` inspects the lock (a blocked `Lock.acquire` simply
cannot step); the data actions are the individual interleavable operations of
the critical section, and `release` (the `finally` of the context manager)
clears the lock.  Mutual exclusion is emergent, not assumed. -/
inductive LockStep (n : Nat) (entryOf : Fin n → Nat) : LockConfig n → LockConfig n → Prop where
  | acquire (c : LockConfig n) (t : Fin n) :
      c.phase t = .start → c.lock = none →
      LockStep n entryOf c ⟨some t, Function.update c.phase t .preRead, c.count, c.alerts⟩
  | readCount (c : LockConfig n) (t : Fin n) :
      c.phase t = .preRead →
      LockStep n entryOf c ⟨c.lock, Function.update c.phase t (.postRead c.count), c.count, c.alerts⟩
  | writeCount (c : LockConfig n) (t : Fin n) (r : Nat) :
      c.phase t = .postRead r →
      LockStep n entryOf c ⟨c.lock, Function.update c.phase t .postWrite, r + 1, c.alerts⟩
  | appendAlert (c : LockConfig n) (t : Fin n) :
      c.phase t = .postWrite →
      LockStep n entryOf c
        ⟨c.lock, Function.update c.phase t .postAppend, c.count, truncAlerts (c.alerts ++ [entryOf t])⟩
  | release (c : LockConfig n) (t : Fin n) :
      c.phase t = .postAppend →
      LockStep n entryOf c ⟨none, Function.update c.phase t .done, c.count, c.alerts⟩

/-- Startup configuration: lock free, every thread about to commit, counter
zero, no alerts. -/
def initLockConfig (n : Nat) : LockConfig n := ⟨none, fun _ => .start, 0, []⟩

/-- Reachability under the interleaving semantics. -/
def LockReachable (n : Nat) (entryOf : Fin n → Nat) (c : LockConfig n) : Prop :=
  Relation.ReflTransGen (LockStep n entryOf) (initLockConfig n) c

/-! ### List helper lemmas -/

theorem takeWhile_append_eq {p : Char → Bool} (u v : List Char)
    (hu : ∀ c ∈ u, p c = true) (hv : ∀ c, v.head? = some c → p c = false) :
    (u ++ v).takeWhile p = u := by
  induction u with
  | nil =>
    cases v with
    | nil => rfl
    | cons c v' => simp [List.takeWhile_cons, hv c rfl]
  | cons a u' ih =>
    simp only [List.cons_append, List.takeWhile_cons, hu a (List.mem_cons_self a u')]
    simp [ih (fun c hc => hu c (List.mem_cons_of_mem _ hc))]

theorem dropWhile_append_eq {p : Char → Bool} (u v : List Char)
    (hu : ∀ c ∈ u, p c = true) (hv : ∀ c, v.head? = some c → p c = false) :
    (u ++ v).dropWhile p = v := by
  induction u with
  | nil =>
    cases v with
    | nil => rfl
    | cons c v' => simp [List.dropWhile_cons, hv c rfl]
  | cons a u' ih =>
    simp only [List.cons_append, List.dropWhile_cons, hu a (List.mem_cons_self a u')]
    simpa using ih (fun c hc => hu c (List.mem_cons_of_mem _ hc))

theorem dropWhile_append_all {p : Char → Bool} (u v : List Char)
    (hu : ∀ c ∈ u, p c = true) : (u ++ v).dropWhile p = v.dropWhile p := by
  induction u with
  | nil => rfl
  | cons a u' ih =>
    simp only [List.cons_append, List.dropWhile_cons, hu a (List.mem_cons_self a u')]
    simpa using ih (fun c hc => hu c (List.mem_cons_of_mem _ hc))

theorem head_of_ws (w rest : List Char) (hw : ∀ c ∈ w, pyIsSpace c = true) (hne : w ≠ []) :
    ∀ c, (w ++ rest).head? = some c → pyIsSpace c = true := by
  cases w with
  | nil => exact absurd rfl hne
  | cons a w' =>
    intro c h
    simp only [List.cons_append, List.head?_cons, Option.some.injEq] at h
    exact h ▸ hw a (List.mem_cons_self a w')

theorem lastN_eq_rtake {α : Type} (n : Nat) (xs : List α) : lastN n xs = List.rtake xs n := rfl

theorem truncAlerts_eq_lastN {α : Type} (xs : List α) : truncAlerts xs = lastN 100 xs := by
  unfold truncAlerts lastN
  by_cases h : 100 < xs.length
  · simp [h]
  · have : xs.length - 100 = 0 := by omega
    simp [h, this]

theorem lastN_of_length_le {α : Type} (n : Nat) (xs : List α) (h : xs.length ≤ n) :
    lastN n xs = xs := by
  unfold lastN
  have : xs.length - n = 0 := by omega
  simp [this]

theorem lastN_length_le {α : Type} (n : Nat) (xs : List α) : (lastN n xs).length ≤ n := by
  unfold lastN
  simp only [List.length_drop]
  omega

theorem truncAlerts_length_le {α : Type} (xs : List α) : (truncAlerts xs).length ≤ 100 := by
  rw [truncAlerts_eq_lastN]
  exact lastN_length_le 100 xs

theorem lastN_append_lastN {α : Type} (n : Nat) (xs ys : List α) :
    lastN n (lastN n xs ++ ys) = lastN n (xs ++ ys) := by
  have hx : lastN n xs = (xs.reverse.take n).reverse := by
    rw [lastN_eq_rtake, List.rtake_eq_reverse_take_reverse]
  rw [lastN_eq_rtake, List.rtake_eq_reverse_take_reverse,
    lastN_eq_rtake n (xs ++ ys), List.rtake_eq_reverse_take_reverse]
  rw [hx]
  congr 1
  rw [List.reverse_append, List.reverse_append, List.reverse_reverse]
  rw [List.take_append_eq_append_take, List.take_append_eq_append_take]
  congr 1
  rw [List.take_take, Nat.min_eq_left (Nat.sub_le n ys.reverse.length)]

/-! ### Character class facts -/

theorem digit_space_disjoint (c : Char) : ¬(pyIsDigit c = true ∧ pyIsSpace c = true) := by
  unfold pyIsDigit pyIsSpace
  simp only [Bool.or_eq_true, Bool.and_eq_true, decide_eq_true_eq, beq_iff_eq]
  omega

theorem isDigit_not_space {c : Char} (h : pyIsDigit c = true) : pyIsSpace c = false := by
  cases hps : pyIsSpace c with
  | false => rfl
  | true => exact absurd ⟨h, hps⟩ (digit_space_disjoint c)

theorem head_not_space_of_digit (d : List Char) (rest : List Char)
    (hd : ∀ c ∈ d, pyIsDigit c = true) (hne : d ≠ []) :
    ∀ c, (d ++ rest).head? = some c → pyIsSpace c = false := by
  cases d with
  | nil => exact absurd rfl hne
  | cons a d' =>
    intro c h
    simp only [List.cons_append, List.head?_cons, Option.some.injEq] at h
    exact h ▸ isDigit_not_space (hd a (List.mem_cons_self a d'))

/-! ### Claims C5 and C10 -/

/-- C5: the classifier maps severities 0-7 to the eight fixed names
Emergency, Alert, Critical, Error, Warning, Notice, Informational, Debug; any
severity outside 0-7 or an absent severity maps to "Unknown"; the
high-severity flag is true iff the severity is present and in 0-3; the flag
gates admission to the alert sequence but never gates the counter
increment. -/
theorem classifier_contract :
    (severityName (some 0) = ("Emergency").toList ∧ severityName (some 1) = ("Alert").toList ∧
     severityName (some 2) = ("Critical").toList ∧ severityName (some 3) = ("Error").toList ∧
     severityName (some 4) = ("Warning").toList ∧ severityName (some 5) = ("Notice").toList ∧
     severityName (some 6) = ("Informational").toList ∧ severityName (some 7) = ("Debug").toList) ∧
    (∀ s : Nat, 8 ≤ s → severityName (some s) = ("Unknown").toList) ∧
    severityName none = ("Unknown").toList ∧
    (∀ sev : Option Nat,
      isHighSeverity sev = true ↔ ∃ s, sev = some s ∧ (s = 0 ∨ s = 1 ∨ s = 2 ∨ s = 3)) ∧
    (∀ (α : Type) (sev : Option Nat) (e : α) (st : AggState α),
      (commit sev e st).syslog_count = st.syslog_count + 1 ∧
      (isHighSeverity sev = false → (commit sev e st).recent_alerts = st.recent_alerts) ∧
      (isHighSeverity sev = true →
        (commit sev e st).recent_alerts = truncAlerts (st.recent_alerts ++ [e]))) := by
  refine ⟨⟨rfl, rfl, rfl, rfl, rfl, rfl, rfl, rfl⟩, ?_, rfl, ?_, ?_⟩
  · intro s hs
    obtain ⟨k, rfl⟩ : ∃ k, s = k + 8 := ⟨s - 8, by omega⟩
    rfl
  · intro sev
    cases sev with
    | none => simp [isHighSeverity]
    | some s =>
      constructor
      · intro h
        refine ⟨s, rfl, ?_⟩
        by_contra hc
        push_neg at hc
        obtain ⟨h0, h1, h2, h3⟩ := hc
        obtain ⟨k, rfl⟩ : ∃ k, s = k + 4 := ⟨s - 4, by omega⟩
        have : isHighSeverity (some (k + 4)) = false := rfl
        rw [this] at h
        cases h
      · rintro ⟨s', hs', rfl | rfl | rfl | rfl⟩ <;>
          (injection hs' with h'; subst h'; rfl)
  · intro α sev e st
    by_cases h : isHighSeverity sev = true
    · refine ⟨by simp [commit, h], ?_, ?_⟩
      · intro hf
        rw [hf] at h
        cases h
      · intro _
        simp [commit, h]
    · have hf : isHighSeverity sev = false := by
        cases hx : isHighSeverity sev
        · rfl
        · exact absurd hx h
      refine ⟨by simp [commit, hf], ?_, ?_⟩
      · intro _
        simp [commit, hf]
      · intro ht
        exact absurd ht h

/-- Witness for C5 at concrete severities and states. -/
theorem classifier_contract_witness :
    severityName (some 42) = ("Unknown").toList ∧
    (commit (some 1) (42 : Nat) ⟨7, []⟩).recent_alerts = truncAlerts (([] : List Nat) ++ [42]) ∧
    (commit (some 6) (42 : Nat) ⟨7, [3]⟩).recent_alerts = [3] :=
  ⟨classifier_contract.2.1 42 (by decide),
   ((classifier_contract.2.2.2.2 Nat (some 1) 42 ⟨7, []⟩).2.2) (by decide),
   ((classifier_contract.2.2.2.2 Nat (some 6) 42 ⟨7, [3]⟩).2.1) (by decide)⟩

/-- C10: the startup block sets `state['stats']['syslog_count']` to 0
unconditionally (overwriting any pre-existing count), preserves a
pre-existing `state['recent_alerts']` (creating it empty only when absent),
and modifies nothing else in the shared state. -/
theorem init_state_frame {α : Type} (s : SharedDict α) :
    (initListenerState s).stats_syslog_count = some 0 ∧
    (∀ l, s.recent_alerts = some l → (initListenerState s).recent_alerts = some l) ∧
    (s.recent_alerts = none → (initListenerState s).recent_alerts = some []) ∧
    (initListenerState s).stats_other = s.stats_other ∧
    (initListenerState s).other = s.other ∧
    (initListenerState s).stats_present = true := by
  refine ⟨rfl, ?_, ?_, rfl, rfl, rfl⟩
  · intro l h
    simp [initListenerState, h]
  · intro h
    simp [initListenerState, h]

/-- Witness for C10: a state with a pre-existing count of 5 and a
pre-existing alert gets its count reset and its alert kept; a state without
`recent_alerts` gets an empty list. -/
theorem init_state_frame_witness :
    (initListenerState (⟨false, some 5, [], some [1], []⟩ : SharedDict Nat)).stats_syslog_count
        = some 0 ∧
    (initListenerState (⟨false, some 5, [], some [1], []⟩ : SharedDict Nat)).recent_alerts
        = some [1] ∧
    (initListenerState (⟨true, none, [], none, []⟩ : SharedDict Nat)).recent_alerts = some [] :=
  ⟨(init_state_frame _).1, (init_state_frame _).2.1 [1] rfl, (init_state_frame _).2.2.1 rfl⟩

/-! ### Claim C3 -/

theorem commit_count {α : Type} (sev : Option Nat) (e : α) (st : AggState α) :
    (commit sev e st).syslog_count = st.syslog_count + 1 := by
  by_cases h : isHighSeverity sev <;> simp [commit, h]

theorem commit_alerts_high {α : Type} (sev : Option Nat) (e : α) (st : AggState α)
    (h : isHighSeverity sev = true) :
    (commit sev e st).recent_alerts = truncAlerts (st.recent_alerts ++ [e]) := by
  simp [commit, h]

theorem commit_alerts_low {α : Type} (sev : Option Nat) (e : α) (st : AggState α)
    (h : isHighSeverity sev = false) :
    (commit sev e st).recent_alerts = st.recent_alerts := by
  simp [commit, h]

theorem commitAll_closed {α : Type} (l : List (Option Nat × α)) :
    ∀ st : AggState α, st.recent_alerts.length ≤ 100 →
      commitAll l st =
        ⟨st.syslog_count + l.length,
         lastN 100 (st.recent_alerts ++ (l.filter fun p => isHighSeverity p.1).map Prod.snd)⟩ := by
  induction l with
  | nil =>
    intro st h
    cases st with
    | mk cnt alerts =>
      simp [commitAll, lastN_of_length_le 100 alerts h]
  | cons p l' ih =>
    intro st h
    have hstep : commitAll (p :: l') st = commitAll l' (commit p.1 p.2 st) := rfl
    have hcnt : (commit p.1 p.2 st).syslog_count = st.syslog_count + 1 := commit_count _ _ _
    by_cases hp : isHighSeverity p.1 = true
    · have halerts : (commit p.1 p.2 st).recent_alerts = lastN 100 (st.recent_alerts ++ [p.2]) := by
        rw [commit_alerts_high _ _ _ hp, truncAlerts_eq_lastN]
      have hlen : (commit p.1 p.2 st).recent_alerts.length ≤ 100 := by
        rw [halerts]; exact lastN_length_le _ _
      rw [hstep, ih _ hlen, halerts, hcnt]
      have hfil : ((p :: l').filter fun q => isHighSeverity q.1) =
          p :: (l'.filter fun q => isHighSeverity q.1) := List.filter_cons_of_pos (by simpa using hp)
      rw [hfil]
      have harr : lastN 100 (lastN 100 (st.recent_alerts ++ [p.2]) ++
            (l'.filter fun q => isHighSeverity q.1).map Prod.snd) =
          lastN 100 (st.recent_alerts ++
            (p.2 :: (l'.filter fun q => isHighSeverity q.1).map Prod.snd)) := by
        rw [lastN_append_lastN, List.append_assoc]
        rfl
      rw [harr]
      have : st.syslog_count + 1 + l'.length = st.syslog_count + (l'.length + 1) := by omega
      rw [this]
      rfl
    · have hpf : isHighSeverity p.1 = false := by
        cases hx : isHighSeverity p.1
        · rfl
        · exact absurd hx hp
      have halerts : (commit p.1 p.2 st).recent_alerts = st.recent_alerts :=
        commit_alerts_low _ _ _ hpf
      have hlen : (commit p.1 p.2 st).recent_alerts.length ≤ 100 := by rw [halerts]; exact h
      rw [hstep, ih _ hlen, halerts, hcnt]
      have hfil : ((p :: l').filter fun q => isHighSeverity q.1) =
          l'.filter fun q => isHighSeverity q.1 := List.filter_cons_of_neg (by simp [hpf])
      rw [hfil]
      have : st.syslog_count + 1 + l'.length = st.syslog_count + (l'.length + 1) := by omega
      rw [this]
      rfl

/-- C3: every commit increments the counter by exactly one regardless of
severity; the entry is appended to the alert sequence iff it is
high-severity; after any sequence of commits from the initial state the alert
sequence has length at most 100 and equals the last (up to) 100 high-severity
entries in arrival order (oldest evicted first). -/
theorem shared_state_bound {α : Type} (sev : Option Nat) (e : α) (st : AggState α)
    (l : List (Option Nat × α)) :
    (commit sev e st).syslog_count = st.syslog_count + 1 ∧
    (isHighSeverity sev = true →
      (commit sev e st).recent_alerts = truncAlerts (st.recent_alerts ++ [e])) ∧
    (isHighSeverity sev = false → (commit sev e st).recent_alerts = st.recent_alerts) ∧
    (commitAll l ⟨0, []⟩).syslog_count = l.length ∧
    (commitAll l ⟨0, []⟩).recent_alerts =
      lastN 100 ((l.filter fun p => isHighSeverity p.1).map Prod.snd) ∧
    (commitAll l ⟨0, []⟩).recent_alerts.length ≤ 100 := by
  have hc := commitAll_closed l (⟨0, []⟩ : AggState α) (by simp)
  refine ⟨commit_count _ _ _, commit_alerts_high _ _ _, commit_alerts_low _ _ _, ?_, ?_, ?_⟩
  · rw [hc]
    simp
  · rw [hc]
    simp
  · rw [hc]
    exact lastN_length_le _ _

set_option maxRecDepth 4000 in
/-- Witness for C3, including the 150-commit instance of the claim:
150 high-severity commits leave the counter at 150 and exactly the last 100
entries in arrival order. -/
theorem shared_state_bound_witness :
    (commitAll ((List.range 150).map fun i => ((some 0 : Option Nat), i)) ⟨0, []⟩).syslog_count
        = 150 ∧
    (commitAll ((List.range 150).map fun i => ((some 0 : Option Nat), i)) ⟨0, []⟩).recent_alerts
        = (List.range 150).drop 50 ∧
    (commit (some 3) (7 : Nat) ⟨0, []⟩).recent_alerts = [7] ∧
    (commit (some 4) (7 : Nat) ⟨0, []⟩).recent_alerts = [] := by
  obtain ⟨-, h2, h3, h4, h5, -⟩ :=
    shared_state_bound (some 3) (7 : Nat) (⟨0, []⟩ : AggState Nat)
      ((List.range 150).map fun i => ((some 0 : Option Nat), i))
  refine ⟨h4.trans (by simp), h5.trans (by decide), ?_, ?_⟩
  · exact (h2 (by decide)).trans (by decide)
  · exact ((shared_state_bound (some 4) (7 : Nat) (⟨0, []⟩ : AggState Nat) []).2.2.1 (by decide)).trans rfl

/-! ### Claim C7 -/

theorem parse_pri_shape (msg : List Char) :
    parse_syslog_pri msg = (none, none, msg) ∨
      ∃ p rem, parse_syslog_pri msg = (some (p / 8), some (p % 8), rem) := by
  unfold parse_syslog_pri
  dsimp only
  repeat' split
  all_goals first
    | (left; rfl)
    | (right; exact ⟨_, _, rfl⟩)

/-- C7 (amended): in every log entry the pipeline produces, facility and
severity are either both absent or both present; when present the severity is
in 0-7, and the facility is a non-negative integer that is at most 23 exactly
when the decoded priority value (8 * facility + severity) is at most 191 —
priorities above 191 yield facilities above 23. -/
theorem entry_field_ranges (ts src msg : List Char) :
    ((buildEntry ts src msg).facility = none ∧ (buildEntry ts src msg).severity = none) ∨
      ∃ f s, (buildEntry ts src msg).facility = some f ∧
        (buildEntry ts src msg).severity = some s ∧ s ≤ 7 ∧ (f ≤ 23 ↔ 8 * f + s ≤ 191) := by
  rcases parse_pri_shape msg with h | ⟨p, rem, h⟩
  · left
    constructor <;> simp [buildEntry, h]
  · right
    refine ⟨p / 8, p % 8, by simp [buildEntry, h], by simp [buildEntry, h], by omega, by omega⟩

/-- Counterexample for C7 as stated: the datagram `<200>x` yields a log entry
whose facility is 25, outside the claimed range 0-23. -/
theorem entry_facility_counterexample :
    (buildEntry [] [] (("<200>x").toList)).facility = some 25 ∧ ¬(25 ≤ 23) := by
  exact ⟨rfl, by decide⟩

/-! ### Claim C1 -/

theorem mde_no_newline (rem : List Char) (h : ∀ c ∈ rem, c ≠ '\n') :
    matchDotStarEnd rem = some rem := by
  unfold matchDotStarEnd
  have : rem.all (fun c => !(c == '\n')) = true := by
    rw [List.all_eq_true]
    intro c hc
    simpa using h c hc
  simp [this]

theorem mde_trailing_newline (rem : List Char) (h : ∀ c ∈ rem, c ≠ '\n') :
    matchDotStarEnd (rem ++ ['\n']) = some rem := by
  unfold matchDotStarEnd
  have h1 : (rem ++ ['\n']).all (fun c => !(c == '\n')) = false := by
    rw [List.all_eq_false]
    exact ⟨'\n', by simp, by simp⟩
  have h2 : (rem ++ ['\n']).getLast? = some '\n' := by simp
  have h3 : (rem ++ ['\n']).dropLast = rem := by simp
  have h4 : rem.all (fun c => !(c == '\n')) = true := by
    rw [List.all_eq_true]
    intro c hc
    simpa using h c hc
  simp [h1, h2, h3, h4]

theorem mde_none_of_interior (rem : List Char) (h : '\n' ∈ rem.dropLast) :
    matchDotStarEnd rem = none := by
  unfold matchDotStarEnd
  have hmem : '\n' ∈ rem := (List.dropLast_sublist rem).subset h
  have h1 : rem.all (fun c => !(c == '\n')) = false := by
    rw [List.all_eq_false]
    exact ⟨'\n', hmem, by simp⟩
  have h2 : rem.dropLast.all (fun c => !(c == '\n')) = false := by
    rw [List.all_eq_false]
    exact ⟨'\n', h, by simp⟩
  simp [h1, h2]

/-- One-step evaluation of `parse_syslog_pri` on a `<`-headed message. -/
theorem parse_pri_cons_lt (rest : List Char) :
    parse_syslog_pri ('<' :: rest) =
      match rest.dropWhile pyIsDigit with
      | '>' :: rem =>
        if rest.takeWhile pyIsDigit = [] then (none, none, '<' :: rest)
        else
          match matchDotStarEnd rem with
          | some g2 =>
            (some (digitsToNat (rest.takeWhile pyIsDigit) / 8),
              some (digitsToNat (rest.takeWhile pyIsDigit) % 8), g2)
          | none => (none, none, '<' :: rest)
      | _ => (none, none, '<' :: rest) := rfl

theorem isDigit_ne_gt {c : Char} (h : pyIsDigit c = true) : c ≠ '>' := by
  intro hc
  subst hc
  exact absurd h (by decide)

/-- Computation of `parse_syslog_pri` on an input of the matching shape. -/
theorem parse_pri_eq (ds rem : List Char) (hne : ds ≠ []) (hds : ∀ c ∈ ds, pyIsDigit c = true) :
    parse_syslog_pri ('<' :: (ds ++ '>' :: rem)) =
      match matchDotStarEnd rem with
      | some g2 => (some (digitsToNat ds / 8), some (digitsToNat ds % 8), g2)
      | none => (none, none, '<' :: (ds ++ '>' :: rem)) := by
  have hv : ∀ c : Char, ('>' :: rem).head? = some c → pyIsDigit c = false := by
    intro c hc
    simp only [List.head?_cons, Option.some.injEq] at hc
    subst hc
    decide
  have ht : (ds ++ '>' :: rem).takeWhile pyIsDigit = ds := takeWhile_append_eq _ _ hds hv
  have hd : (ds ++ '>' :: rem).dropWhile pyIsDigit = '>' :: rem := dropWhile_append_eq _ _ hds hv
  unfold parse_syslog_pri
  simp only [ht, hd, hne, if_neg]
  rfl

/-- C1 (amended): `parse_syslog_pri` extracts the priority of `<N>`-prefixed
messages, but the remainder must not contain an interior newline: when the
remainder after `>` is newline-free the decoder returns facility N / 8,
severity N % 8 and the remainder; a single trailing newline is silently
stripped from the returned remainder; a newline anywhere before the final
character makes the match fail and the message is passed through unchanged,
as is every input not of the form `<digits>`. -/
theorem pri_decoder (ds rem : List Char) (hne : ds ≠ [])
    (hds : ∀ c ∈ ds, pyIsDigit c = true) :
    ((∀ c ∈ rem, c ≠ '\n') →
      parse_syslog_pri ('<' :: (ds ++ '>' :: rem)) =
        (some (digitsToNat ds / 8), some (digitsToNat ds % 8), rem)) ∧
    ((∀ c ∈ rem, c ≠ '\n') →
      parse_syslog_pri ('<' :: (ds ++ '>' :: (rem ++ ['\n']))) =
        (some (digitsToNat ds / 8), some (digitsToNat ds % 8), rem)) ∧
    ('\n' ∈ rem.dropLast →
      parse_syslog_pri ('<' :: (ds ++ '>' :: rem)) =
        (none, none, '<' :: (ds ++ '>' :: rem))) ∧
    (∀ m : List Char,
      (¬ ∃ es rm, m = '<' :: (es ++ '>' :: rm) ∧ es ≠ [] ∧ ∀ c ∈ es, pyIsDigit c = true) →
      parse_syslog_pri m = (none, none, m)) := by
  refine ⟨?_, ?_, ?_, ?_⟩
  · intro h
    rw [parse_pri_eq ds rem hne hds, mde_no_newline rem h]
  · intro h
    rw [parse_pri_eq ds (rem ++ ['\n']) hne hds, mde_trailing_newline rem h]
  · intro h
    rw [parse_pri_eq ds rem hne hds, mde_none_of_interior rem h]
  · intro m hno
    cases m with
    | nil => rfl
    | cons c rest =>
      by_cases hc : c = '<'
      · subst hc
        rcases hsplit : rest.dropWhile pyIsDigit with _ | ⟨d, rem0⟩
        · rw [parse_pri_cons_lt, hsplit]
        · by_cases hd : d = '>'
          · subst hd
            by_cases hds0 : rest.takeWhile pyIsDigit = []
            · rw [parse_pri_cons_lt, hsplit]
              simp [hds0]
            · exfalso
              apply hno
              refine ⟨rest.takeWhile pyIsDigit, rem0, ?_, hds0, ?_⟩
              · have := List.takeWhile_append_dropWhile (p := pyIsDigit) (l := rest)
                rw [hsplit] at this
                exact congrArg (fun x => '<' :: x) this.symm
              · intro c hc
                exact List.mem_takeWhile_imp hc
          · rw [parse_pri_cons_lt, hsplit]
            split
            · next heq =>
              exfalso
              rw [List.cons.injEq] at heq
              exact hd heq.1
            · rfl
      · unfold parse_syslog_pri
        split
        · next heq =>
          exfalso
          rw [List.cons.injEq] at heq
          exact hc heq.1
        · rfl

/-- Counterexample for C1 as stated: `<13>a\nb` begins with `<13>`, yet the
decoder does not return `(1, 5, "a\nb")` — the regex fails on the interior
newline and the message is passed through unchanged. -/
theorem pri_decoder_counterexample :
    parse_syslog_pri (("<13>a\nb").toList) = (none, none, ("<13>a\nb").toList) ∧
    parse_syslog_pri (("<13>a\nb").toList) ≠ (some 1, some 5, ("a\nb").toList) := by
  exact ⟨rfl, by decide⟩

/-- Witness for C1 on well-behaved inputs, including a non-ASCII decimal
digit (U+0663, ARABIC-INDIC DIGIT THREE), which Python's `\d` and `int()`
accept. -/
theorem pri_decoder_witness :
    parse_syslog_pri (("<13>hello").toList) = (some 1, some 5, ("hello").toList) ∧
    parse_syslog_pri ['<', '٣', '>', 'x'] = (some 0, some 3, ['x']) ∧
    parse_syslog_pri (("no-prefix").toList) = (none, none, ("no-prefix").toList) := by
  refine ⟨?_, ?_, ?_⟩
  · exact (pri_decoder ['1', '3'] (("hello").toList) (by decide) (by decide)).1 (by decide)
  · exact (pri_decoder ['٣'] ['x'] (by decide) (by decide)).1 (by decide)
  · refine (pri_decoder ['1'] [] (by decide) (by decide)).2.2.2 (("no-prefix").toList) ?_
    rintro ⟨es, rm, h, -, -⟩
    rw [show ("no-prefix").toList = 'n' :: ("o-prefix").toList from rfl, List.cons.injEq] at h
    exact absurd h.1 (by decide)

/-! ### Claims C6 and C8 -/

/-- C6: a PRI-stripped message that is neither well-formed RFC 5424 (leading
`"1 "` with at least 7 whitespace-delimited fields) nor an RFC 3164 match is
returned as `("unknown", "unknown", original message)`, unmodified. -/
theorem unknown_format (msg : List Char)
    (h1 : ¬(msg.take 2 = ['1', ' '] ∧ 7 ≤ (pySplitNone 6 msg).length))
    (h2 : rfc3164Match msg = none) :
    parse_syslog_message msg = (unknownS, unknownS, msg) := by
  unfold parse_syslog_message
  by_cases hc : msg.take 2 = ['1', ' ']
  · have hlen : ¬ 7 ≤ (pySplitNone 6 msg).length := fun hl => h1 ⟨hc, hl⟩
    simp [hc, hlen]
  · simp [hc, h2]

/-- Witness for C6 on a concrete unrecognizable message. -/
theorem unknown_format_witness :
    parse_syslog_message (("garbage text").toList) =
      (unknownS, unknownS, ("garbage text").toList) :=
  unknown_format (("garbage text").toList) (by decide) (by decide)

theorem commit_alerts_le {α : Type} (sev : Option Nat) (e : α) (st : AggState α)
    (h : st.recent_alerts.length ≤ 100) : (commit sev e st).recent_alerts.length ≤ 100 := by
  by_cases hp : isHighSeverity sev = true
  · rw [commit_alerts_high _ _ _ hp]
    exact truncAlerts_length_le _
  · have hpf : isHighSeverity sev = false := by
      cases hx : isHighSeverity sev
      · rfl
      · exact absurd hx hp
    rw [commit_alerts_low _ _ _ hpf]
    exact h

theorem runLoop_count (ds : List Datagram) :
    ∀ st : AggState LogEntry, (runLoop ds st).syslog_count = st.syslog_count + ds.length ∧
      (st.recent_alerts.length ≤ 100 → (runLoop ds st).recent_alerts.length ≤ 100) := by
  induction ds with
  | nil => exact fun st => ⟨rfl, fun h => h⟩
  | cons d ds' ih =>
    intro st
    have hstep : runLoop (d :: ds') st = runLoop ds' (processDatagram d st) := rfl
    constructor
    · rw [hstep, (ih _).1]
      have : (processDatagram d st).syslog_count = st.syslog_count + 1 := commit_count _ _ _
      rw [this]
      simp only [List.length_cons]
      omega
    · intro h
      rw [hstep]
      exact (ih _).2 (commit_alerts_le _ _ _ h)

/-- C8: for every trace of datagrams of at most 1024 bytes — arbitrary byte
sequences — the per-datagram pipeline (decode with fallback, parse, classify,
commit) is a total function, every datagram is processed and counted, and the
alert bound is maintained: no input byte sequence can stop the loop from
handling the subsequent datagrams. -/
theorem ingest_loop_total (ds : List Datagram) (hsize : ∀ d ∈ ds, d.payload.length ≤ 1024) :
    (runLoop ds ⟨0, []⟩).syslog_count = ds.length ∧
    (runLoop ds ⟨0, []⟩).recent_alerts.length ≤ 100 := by
  obtain ⟨h1, h2⟩ := runLoop_count ds (⟨0, []⟩ : AggState LogEntry)
  exact ⟨by simpa using h1, h2 (by simp)⟩

/-- Witness for C8: two garbage datagrams (an invalid UTF-8 payload and an
empty payload) are both processed and counted. -/
theorem ingest_loop_total_witness :
    (runLoop [⟨("t").toList, ("s").toList, [255, 254, 60, 49, 62]⟩,
              ⟨("t").toList, ("s").toList, []⟩] ⟨0, []⟩).syslog_count = 2 ∧
    (runLoop [⟨("t").toList, ("s").toList, [255, 254, 60, 49, 62]⟩,
              ⟨("t").toList, ("s").toList, []⟩] ⟨0, []⟩).recent_alerts.length ≤ 100 :=
  ingest_loop_total _ (by decide)

/-! ### Claim C2 -/

theorem pySplitNone_zero (s : List Char) :
    pySplitNone 0 s =
      if s.dropWhile pyIsSpace = [] then [] else [s.dropWhile pyIsSpace] := rfl

theorem pySplitNone_succ (m : Nat) (s : List Char) :
    pySplitNone (m + 1) s =
      if s.dropWhile pyIsSpace = [] then []
      else
        ((s.dropWhile pyIsSpace).takeWhile fun c => !pyIsSpace c) ::
          pySplitNone m ((s.dropWhile pyIsSpace).dropWhile fun c => !pyIsSpace c) := rfl

theorem pySplitNone_token (m : Nat) (t rest : List Char) (ht : t ≠ [])
    (htc : ∀ c ∈ t, pyIsSpace c = false)
    (hrest : ∀ c, rest.head? = some c → pyIsSpace c = true) :
    pySplitNone (m + 1) (t ++ rest) = t :: pySplitNone m rest := by
  have hdw : (t ++ rest).dropWhile pyIsSpace = t ++ rest := by
    cases t with
    | nil => exact absurd rfl ht
    | cons a t' => simp [List.cons_append, List.dropWhile_cons, htc a (List.mem_cons_self a t')]
  have hne : t ++ rest ≠ [] := by
    cases t with
    | nil => exact absurd rfl ht
    | cons a t' => simp
  have htk : (t ++ rest).takeWhile (fun c => !pyIsSpace c) = t :=
    takeWhile_append_eq t rest (fun c hc => by simp [htc c hc])
      (fun c hc => by simp [hrest c hc])
  have hdw2 : (t ++ rest).dropWhile (fun c => !pyIsSpace c) = rest :=
    dropWhile_append_eq t rest (fun c hc => by simp [htc c hc])
      (fun c hc => by simp [hrest c hc])
  rw [pySplitNone_succ, hdw, if_neg hne, htk, hdw2]

theorem pySplitNone_ws (m : Nat) (w rest : List Char) (hw : ∀ c ∈ w, pyIsSpace c = true) :
    pySplitNone m (w ++ rest) = pySplitNone m rest := by
  have hdw : (w ++ rest).dropWhile pyIsSpace = rest.dropWhile pyIsSpace :=
    dropWhile_append_all w rest hw
  cases m with
  | zero => rw [pySplitNone_zero, pySplitNone_zero, hdw]
  | succ m' => rw [pySplitNone_succ, pySplitNone_succ, hdw]

theorem pySplitNone_zero_last (r : List Char) (hne : r ≠ [])
    (hrh : ∀ c, r.head? = some c → pyIsSpace c = false) :
    pySplitNone 0 r = [r] := by
  have hdw : r.dropWhile pyIsSpace = r := by
    cases r with
    | nil => exact absurd rfl hne
    | cons a r' => simp [List.dropWhile_cons, hrh a rfl]
  rw [pySplitNone_zero, hdw, if_neg hne]

/-- C2: a PRI-stripped message that starts with `"1 "` and splits into (at
least) 7 whitespace-delimited fields parses as RFC 5424: hostname is field 3
and app-name field 4 (`-` replaced by `"unknown"`), and the message text is
computed from the unsplit remainder field by the structured-data rules of
`sdMessage` ('- ' prefix: drop it; leading '[': text after the depth-matched
close, whitespace-trimmed, or empty without one; otherwise the whole
remainder). -/
theorem rfc5424_parse
    (u1 ts hn an pid mid : List Char) (w2 w3 w4 w5 w6 r : List Char)
    (hu1 : ∀ c ∈ u1, pyIsSpace c = true)
    (hts : ts ≠ []) (htsc : ∀ c ∈ ts, pyIsSpace c = false)
    (hhn : hn ≠ []) (hhnc : ∀ c ∈ hn, pyIsSpace c = false)
    (han : an ≠ []) (hanc : ∀ c ∈ an, pyIsSpace c = false)
    (hpid : pid ≠ []) (hpidc : ∀ c ∈ pid, pyIsSpace c = false)
    (hmid : mid ≠ []) (hmidc : ∀ c ∈ mid, pyIsSpace c = false)
    (hw2 : w2 ≠ []) (hw2c : ∀ c ∈ w2, pyIsSpace c = true)
    (hw3 : w3 ≠ []) (hw3c : ∀ c ∈ w3, pyIsSpace c = true)
    (hw4 : w4 ≠ []) (hw4c : ∀ c ∈ w4, pyIsSpace c = true)
    (hw5 : w5 ≠ []) (hw5c : ∀ c ∈ w5, pyIsSpace c = true)
    (hw6 : w6 ≠ []) (hw6c : ∀ c ∈ w6, pyIsSpace c = true)
    (hr : r ≠ []) (hrh : ∀ c, r.head? = some c → pyIsSpace c = false) :
    parse_syslog_message
        ('1' :: ' ' ::
          (u1 ++ (ts ++ (w2 ++ (hn ++ (w3 ++ (an ++ (w4 ++ (pid ++ (w5 ++ (mid ++ (w6 ++ r)))))))))))) =
      ((if hn = ['-'] then unknownS else hn),
       (if an = ['-'] then unknownS else an),
       sdMessage r) := by
  have e1 : pySplitNone 6
        ('1' :: ' ' ::
          (u1 ++ (ts ++ (w2 ++ (hn ++ (w3 ++ (an ++ (w4 ++ (pid ++ (w5 ++ (mid ++ (w6 ++ r)))))))))))) =
      ['1'] :: pySplitNone 5
        (' ' :: (u1 ++ (ts ++ (w2 ++ (hn ++ (w3 ++ (an ++ (w4 ++ (pid ++ (w5 ++ (mid ++ (w6 ++ r)))))))))))) :=
    pySplitNone_token 5 ['1']
      (' ' :: (u1 ++ (ts ++ (w2 ++ (hn ++ (w3 ++ (an ++ (w4 ++ (pid ++ (w5 ++ (mid ++ (w6 ++ r))))))))))))
      (by simp)
      (by
        intro c hc
        rw [List.mem_singleton] at hc
        subst hc
        decide)
      (by
        intro c hc
        rw [List.head?_cons, Option.some.injEq] at hc
        subst hc
        decide)
  have e2 : pySplitNone 5
        (' ' :: (u1 ++ (ts ++ (w2 ++ (hn ++ (w3 ++ (an ++ (w4 ++ (pid ++ (w5 ++ (mid ++ (w6 ++ r)))))))))))) =
      pySplitNone 5 (ts ++ (w2 ++ (hn ++ (w3 ++ (an ++ (w4 ++ (pid ++ (w5 ++ (mid ++ (w6 ++ r)))))))))) :=
    pySplitNone_ws 5 (' ' :: u1)
      (ts ++ (w2 ++ (hn ++ (w3 ++ (an ++ (w4 ++ (pid ++ (w5 ++ (mid ++ (w6 ++ r))))))))))
      (by
        intro c hc
        rcases List.mem_cons.mp hc with rfl | hc'
        · decide
        · exact hu1 c hc')
  have e3 : pySplitNone 5 (ts ++ (w2 ++ (hn ++ (w3 ++ (an ++ (w4 ++ (pid ++ (w5 ++ (mid ++ (w6 ++ r)))))))))) =
      ts :: pySplitNone 4 (w2 ++ (hn ++ (w3 ++ (an ++ (w4 ++ (pid ++ (w5 ++ (mid ++ (w6 ++ r))))))))) :=
    pySplitNone_token 4 ts (w2 ++ (hn ++ (w3 ++ (an ++ (w4 ++ (pid ++ (w5 ++ (mid ++ (w6 ++ r)))))))))
      hts htsc (head_of_ws w2 (hn ++ (w3 ++ (an ++ (w4 ++ (pid ++ (w5 ++ (mid ++ (w6 ++ r)))))))) hw2c hw2)
  have e4 : pySplitNone 4 (w2 ++ (hn ++ (w3 ++ (an ++ (w4 ++ (pid ++ (w5 ++ (mid ++ (w6 ++ r))))))))) =
      pySplitNone 4 (hn ++ (w3 ++ (an ++ (w4 ++ (pid ++ (w5 ++ (mid ++ (w6 ++ r)))))))) :=
    pySplitNone_ws 4 w2 (hn ++ (w3 ++ (an ++ (w4 ++ (pid ++ (w5 ++ (mid ++ (w6 ++ r)))))))) hw2c
  have e5 : pySplitNone 4 (hn ++ (w3 ++ (an ++ (w4 ++ (pid ++ (w5 ++ (mid ++ (w6 ++ r)))))))) =
      hn :: pySplitNone 3 (w3 ++ (an ++ (w4 ++ (pid ++ (w5 ++ (mid ++ (w6 ++ r))))))) :=
    pySplitNone_token 3 hn (w3 ++ (an ++ (w4 ++ (pid ++ (w5 ++ (mid ++ (w6 ++ r)))))))
      hhn hhnc (head_of_ws w3 (an ++ (w4 ++ (pid ++ (w5 ++ (mid ++ (w6 ++ r)))))) hw3c hw3)
  have e6 : pySplitNone 3 (w3 ++ (an ++ (w4 ++ (pid ++ (w5 ++ (mid ++ (w6 ++ r))))))) =
      pySplitNone 3 (an ++ (w4 ++ (pid ++ (w5 ++ (mid ++ (w6 ++ r)))))) :=
    pySplitNone_ws 3 w3 (an ++ (w4 ++ (pid ++ (w5 ++ (mid ++ (w6 ++ r)))))) hw3c
  have e7 : pySplitNone 3 (an ++ (w4 ++ (pid ++ (w5 ++ (mid ++ (w6 ++ r)))))) =
      an :: pySplitNone 2 (w4 ++ (pid ++ (w5 ++ (mid ++ (w6 ++ r))))) :=
    pySplitNone_token 2 an (w4 ++ (pid ++ (w5 ++ (mid ++ (w6 ++ r)))))
      han hanc (head_of_ws w4 (pid ++ (w5 ++ (mid ++ (w6 ++ r)))) hw4c hw4)
  have e8 : pySplitNone 2 (w4 ++ (pid ++ (w5 ++ (mid ++ (w6 ++ r))))) =
      pySplitNone 2 (pid ++ (w5 ++ (mid ++ (w6 ++ r)))) :=
    pySplitNone_ws 2 w4 (pid ++ (w5 ++ (mid ++ (w6 ++ r)))) hw4c
  have e9 : pySplitNone 2 (pid ++ (w5 ++ (mid ++ (w6 ++ r)))) =
      pid :: pySplitNone 1 (w5 ++ (mid ++ (w6 ++ r))) :=
    pySplitNone_token 1 pid (w5 ++ (mid ++ (w6 ++ r)))
      hpid hpidc (head_of_ws w5 (mid ++ (w6 ++ r)) hw5c hw5)
  have e10 : pySplitNone 1 (w5 ++ (mid ++ (w6 ++ r))) = pySplitNone 1 (mid ++ (w6 ++ r)) :=
    pySplitNone_ws 1 w5 (mid ++ (w6 ++ r)) hw5c
  have e11 : pySplitNone 1 (mid ++ (w6 ++ r)) = mid :: pySplitNone 0 (w6 ++ r) :=
    pySplitNone_token 0 mid (w6 ++ r) hmid hmidc (head_of_ws w6 r hw6c hw6)
  have e12 : pySplitNone 0 (w6 ++ r) = pySplitNone 0 r := pySplitNone_ws 0 w6 r hw6c
  have e13 : pySplitNone 0 r = [r] := pySplitNone_zero_last r hr hrh
  have hparts : pySplitNone 6
        ('1' :: ' ' ::
          (u1 ++ (ts ++ (w2 ++ (hn ++ (w3 ++ (an ++ (w4 ++ (pid ++ (w5 ++ (mid ++ (w6 ++ r)))))))))))) =
      [['1'], ts, hn, an, pid, mid, r] := by
    rw [e1, e2, e3, e4, e5, e6, e7, e8, e9, e10, e11, e12, e13]
  have htake : ('1' :: ' ' ::
      (u1 ++ (ts ++ (w2 ++ (hn ++ (w3 ++ (an ++ (w4 ++ (pid ++ (w5 ++ (mid ++ (w6 ++ r)))))))))))).take 2
      = ['1', ' '] := rfl
  unfold parse_syslog_message
  rw [hparts, if_pos htake]
  simp [List.getD, dashSubst]

/-- Witness for C2: the spec's round-trip example. -/
theorem rfc5424_parse_witness :
    parse_syslog_message (("1 T H A P M - hello").toList) =
      (("H").toList, ("A").toList, ("hello").toList) := by
  have h := rfc5424_parse [] (("T").toList) (("H").toList) (("A").toList) (("P").toList)
    (("M").toList) [' '] [' '] [' '] [' '] [' '] (("- hello").toList)
    (by decide) (by decide) (by decide) (by decide) (by decide) (by decide) (by decide)
    (by decide) (by decide) (by decide) (by decide) (by decide) (by decide) (by decide)
    (by decide) (by decide) (by decide) (by decide) (by decide) (by decide) (by decide)
    (by decide) (by decide)
  exact h.trans (by decide)

/-! ### Claim C4 -/

theorem space_not_digit {c : Char} (h : pyIsSpace c = true) : pyIsDigit c = false := by
  cases hd : pyIsDigit c with
  | false => rfl
  | true => exact absurd ⟨hd, h⟩ (digit_space_disjoint c)

theorem head_not_ws_of_tok (t rest : List Char) (htc : ∀ c ∈ t, pyIsSpace c = false)
    (hne : t ≠ []) : ∀ c, (t ++ rest).head? = some c → pyIsSpace c = false := by
  cases t with
  | nil => exact absurd rfl hne
  | cons a t' =>
    intro c h
    simp only [List.cons_append, List.head?_cons, Option.some.injEq] at h
    exact h ▸ htc a (List.mem_cons_self a t')

theorem appMatchGo_cons (accRev : List Char) (c : Char) (rest : List Char) :
    appMatchGo accRev (c :: rest) =
      if pyIsSpace c then none
      else
        match appTryComplete (c :: accRev).reverse rest with
        | some res => some res
        | none => appMatchGo (c :: accRev) rest := rfl

theorem appTryComplete_other (app : List Char) (b : Char) (X : List Char)
    (hb1 : b ≠ '[') (hb2 : b ≠ ':') : appTryComplete app (b :: X) = none := by
  unfold appTryComplete
  split
  · rename_i heqX
    rw [List.cons.injEq] at heqX
    exact absurd heqX.1 hb1
  · rename_i heqX
    rw [List.cons.injEq] at heqX
    exact absurd heqX.1 hb2
  · rfl

theorem appTryComplete_colon (app X : List Char) :
    appTryComplete app (':' :: X) = appFinish app X := rfl

theorem appFinish_eval (app r3 : List Char) (h : ∀ c ∈ r3, c ≠ '\n') :
    appFinish app r3 = some (app, r3.dropWhile pyIsSpace) := by
  unfold appFinish
  rw [mde_no_newline]
  · rfl
  · intro c hc
    exact h c ((List.dropWhile_sublist (l := r3) (p := pyIsSpace)).subset hc)

theorem appTryComplete_bracket (app ds tail : List Char) (hds : ds ≠ [])
    (hdsc : ∀ c ∈ ds, pyIsDigit c = true) :
    appTryComplete app ('[' :: (ds ++ ']' :: ':' :: tail)) = appFinish app tail := by
  have hv : ∀ c : Char, (']' :: ':' :: tail).head? = some c → pyIsDigit c = false := by
    intro c hc
    simp only [List.head?_cons, Option.some.injEq] at hc
    subst hc
    decide
  have ht : (ds ++ ']' :: ':' :: tail).takeWhile pyIsDigit = ds :=
    takeWhile_append_eq _ _ hdsc hv
  have hd : (ds ++ ']' :: ':' :: tail).dropWhile pyIsDigit = ']' :: ':' :: tail :=
    dropWhile_append_eq _ _ hdsc hv
  unfold appTryComplete
  simp [ht, hd, hds]

theorem appMatchGo_colon (app : List Char) :
    ∀ accRev tail : List Char, app ≠ [] →
      (∀ c ∈ app, pyIsSpace c = false ∧ c ≠ ':' ∧ c ≠ '[') → (∀ c ∈ tail, c ≠ '\n') →
      appMatchGo accRev (app ++ ':' :: tail) =
        some (accRev.reverse ++ app, tail.dropWhile pyIsSpace) := by
  induction app with
  | nil => intro accRev tail hne _ _; exact absurd rfl hne
  | cons a app' ih =>
    intro accRev tail _ hch htail
    obtain ⟨haw, hac, hab⟩ := hch a (List.mem_cons_self a app')
    rw [List.cons_append, appMatchGo_cons, if_neg (by simp [haw])]
    cases app' with
    | nil =>
      rw [List.nil_append, appTryComplete_colon, appFinish_eval _ _ htail]
      simp
    | cons b app'' =>
      obtain ⟨-, hbc, hbb⟩ := hch b (List.mem_cons_of_mem _ (List.mem_cons_self b app''))
      rw [List.cons_append]
      rw [appTryComplete_other _ b _ hbb hbc]
      rw [← List.cons_append]
      rw [ih (a :: accRev) tail (by simp) (fun c hc => hch c (List.mem_cons_of_mem _ hc)) htail]
      simp

theorem appMatchGo_pid (app : List Char) :
    ∀ accRev ds tail : List Char, app ≠ [] →
      (∀ c ∈ app, pyIsSpace c = false ∧ c ≠ ':' ∧ c ≠ '[') →
      ds ≠ [] → (∀ c ∈ ds, pyIsDigit c = true) → (∀ c ∈ tail, c ≠ '\n') →
      appMatchGo accRev (app ++ '[' :: (ds ++ ']' :: ':' :: tail)) =
        some (accRev.reverse ++ app, tail.dropWhile pyIsSpace) := by
  induction app with
  | nil => intro accRev ds tail hne _ _ _ _; exact absurd rfl hne
  | cons a app' ih =>
    intro accRev ds tail _ hch hds hdsc htail
    obtain ⟨haw, hac, hab⟩ := hch a (List.mem_cons_self a app')
    rw [List.cons_append, appMatchGo_cons, if_neg (by simp [haw])]
    cases app' with
    | nil =>
      rw [List.nil_append, appTryComplete_bracket _ _ _ hds hdsc, appFinish_eval _ _ htail]
      simp
    | cons b app'' =>
      obtain ⟨-, hbc, hbb⟩ := hch b (List.mem_cons_of_mem _ (List.mem_cons_self b app''))
      rw [List.cons_append]
      rw [appTryComplete_other _ b _ hbb hbc]
      rw [← List.cons_append]
      rw [ih (a :: accRev) ds tail (by simp) (fun c hc => hch c (List.mem_cons_of_mem _ hc))
        hds hdsc htail]
      simp

theorem appMatch_colon (app tail : List Char) (hne : app ≠ [])
    (hch : ∀ c ∈ app, pyIsSpace c = false ∧ c ≠ ':' ∧ c ≠ '[') (htail : ∀ c ∈ tail, c ≠ '\n') :
    appMatch (app ++ ':' :: tail) = some (app, tail.dropWhile pyIsSpace) := by
  unfold appMatch
  rw [appMatchGo_colon app [] tail hne hch htail]
  simp

theorem appMatch_pid (app ds tail : List Char) (hne : app ≠ [])
    (hch : ∀ c ∈ app, pyIsSpace c = false ∧ c ≠ ':' ∧ c ≠ '[')
    (hds : ds ≠ []) (hdsc : ∀ c ∈ ds, pyIsDigit c = true) (htail : ∀ c ∈ tail, c ≠ '\n') :
    appMatch (app ++ '[' :: (ds ++ ']' :: ':' :: tail)) = some (app, tail.dropWhile pyIsSpace) := by
  unfold appMatch
  rw [appMatchGo_pid app [] ds tail hne hch hds hdsc htail]
  simp

theorem rfc3164_eval
    (mo1 mo2 mo3 : Char) (ws1 day ws2 : List Char) (h1 h2 m1 m2 s1 s2 : Char)
    (ws3 host ws4 rest : List Char)
    (hmo1 : isUpperAZ mo1 = true) (hmo2 : isLowerAZ mo2 = true) (hmo3 : isLowerAZ mo3 = true)
    (hws1 : ws1 ≠ []) (hws1c : ∀ c ∈ ws1, pyIsSpace c = true)
    (hday : day ≠ []) (hdayl : day.length ≤ 2) (hdayc : ∀ c ∈ day, pyIsDigit c = true)
    (hws2 : ws2 ≠ []) (hws2c : ∀ c ∈ ws2, pyIsSpace c = true)
    (hh1 : pyIsDigit h1 = true) (hh2 : pyIsDigit h2 = true) (hm1 : pyIsDigit m1 = true)
    (hm2 : pyIsDigit m2 = true) (hs1 : pyIsDigit s1 = true) (hs2 : pyIsDigit s2 = true)
    (hws3 : ws3 ≠ []) (hws3c : ∀ c ∈ ws3, pyIsSpace c = true)
    (hhost : host ≠ []) (hhostc : ∀ c ∈ host, pyIsSpace c = false)
    (hws4 : ws4 ≠ []) (hws4c : ∀ c ∈ ws4, pyIsSpace c = true)
    (hrest : ∀ c ∈ rest, c ≠ '\n') (hresth : ∀ c, rest.head? = some c → pyIsSpace c = false) :
    rfc3164Match
      (mo1 :: mo2 :: mo3 ::
        (ws1 ++ (day ++ (ws2 ++ (h1 :: h2 :: ':' :: m1 :: m2 :: ':' :: s1 :: s2 ::
          (ws3 ++ (host ++ (ws4 ++ rest)))))))) = some (host, rest) := by
  have hdayw : ∀ c ∈ day, pyIsSpace c = false := fun c hc => isDigit_not_space (hdayc c hc)
  have hT : ∀ c : Char,
      (h1 :: h2 :: ':' :: m1 :: m2 :: ':' :: s1 :: s2 ::
        (ws3 ++ (host ++ (ws4 ++ rest)))).head? = some c → pyIsSpace c = false := by
    intro c hc
    simp only [List.head?_cons, Option.some.injEq] at hc
    exact hc ▸ isDigit_not_space hh1
  have hTd : ∀ c : Char,
      (h1 :: h2 :: ':' :: m1 :: m2 :: ':' :: s1 :: s2 ::
        (ws3 ++ (host ++ (ws4 ++ rest)))).head? = some c → pyIsDigit c = true := by
    intro c hc
    simp only [List.head?_cons, Option.some.injEq] at hc
    exact hc ▸ hh1
  have htw1 := takeWhile_append_eq (p := pyIsSpace) ws1
      (day ++ (ws2 ++ (h1 :: h2 :: ':' :: m1 :: m2 :: ':' :: s1 :: s2 ::
        (ws3 ++ (host ++ (ws4 ++ rest)))))) hws1c
      (head_not_ws_of_tok day _ hdayw hday)
  have hdw1 := dropWhile_append_eq (p := pyIsSpace) ws1
      (day ++ (ws2 ++ (h1 :: h2 :: ':' :: m1 :: m2 :: ':' :: s1 :: s2 ::
        (ws3 ++ (host ++ (ws4 ++ rest)))))) hws1c
      (head_not_ws_of_tok day _ hdayw hday)
  have htw2 := takeWhile_append_eq (p := pyIsDigit) day
      (ws2 ++ (h1 :: h2 :: ':' :: m1 :: m2 :: ':' :: s1 :: s2 ::
        (ws3 ++ (host ++ (ws4 ++ rest))))) hdayc
      (fun c hc => space_not_digit (head_of_ws ws2 _ hws2c hws2 c hc))
  have hdw2 := dropWhile_append_eq (p := pyIsDigit) day
      (ws2 ++ (h1 :: h2 :: ':' :: m1 :: m2 :: ':' :: s1 :: s2 ::
        (ws3 ++ (host ++ (ws4 ++ rest))))) hdayc
      (fun c hc => space_not_digit (head_of_ws ws2 _ hws2c hws2 c hc))
  have htw3 := takeWhile_append_eq (p := pyIsSpace) ws2
      (h1 :: h2 :: ':' :: m1 :: m2 :: ':' :: s1 :: s2 ::
        (ws3 ++ (host ++ (ws4 ++ rest)))) hws2c hT
  have hdw3 := dropWhile_append_eq (p := pyIsSpace) ws2
      (h1 :: h2 :: ':' :: m1 :: m2 :: ':' :: s1 :: s2 ::
        (ws3 ++ (host ++ (ws4 ++ rest)))) hws2c hT
  have htw4 := takeWhile_append_eq (p := pyIsSpace) ws3 (host ++ (ws4 ++ rest)) hws3c
      (head_not_ws_of_tok host _ hhostc hhost)
  have hdw4 := dropWhile_append_eq (p := pyIsSpace) ws3 (host ++ (ws4 ++ rest)) hws3c
      (head_not_ws_of_tok host _ hhostc hhost)
  have htw5 := takeWhile_append_eq (p := notSpace) host (ws4 ++ rest)
      (fun c hc => by simp [notSpace, hhostc c hc])
      (fun c hc => by simp [notSpace, head_of_ws ws4 rest hws4c hws4 c hc])
  have hdw5 := dropWhile_append_eq (p := notSpace) host (ws4 ++ rest)
      (fun c hc => by simp [notSpace, hhostc c hc])
      (fun c hc => by simp [notSpace, head_of_ws ws4 rest hws4c hws4 c hc])
  have htw6 := takeWhile_append_eq (p := pyIsSpace) ws4 rest hws4c hresth
  have hdw6 := dropWhile_append_eq (p := pyIsSpace) ws4 rest hws4c hresth
  have hmde : matchDotStarEnd rest = some rest := mde_no_newline rest hrest
  have hlen0 : day.length ≠ 0 := by
    cases day with
    | nil => exact absurd rfl hday
    | cons a d' => simp
  have hlt : ¬ (2 < day.length) := by omega
  unfold rfc3164Match
  simp only [hmo1, hmo2, hmo3, Bool.and_self, Bool.and_true, Bool.true_and, if_true,
    htw1, hdw1, htw2, hdw2, htw3, hdw3, htw4, hdw4, htw5, hdw5, htw6, hdw6, hmde,
    hws1, hws2, hws3, hws4, hhost, hday, hlen0, hlt,
    hh1, hh2, hm1, hm2, hs1, hs2]
  simp [hws1, hws2, hws3, hws4, hhost, hlen0, hlt]

/-- C4: a PRI-stripped message matching the legacy pattern — a capitalized
three-letter month token, whitespace, a 1-2 digit day, whitespace, HH:MM:SS,
whitespace, a hostname token, whitespace and newline-free remaining text —
parses to that hostname; when the remaining text is an application token
followed by an optional bracketed numeric process id and a colon, the
app-name is that token and the message is the text after the colon with
leading whitespace trimmed; when the app sub-pattern fails, the app-name is
"unknown" and the message is the full remaining text. -/
theorem rfc3164_parse
    (mo1 mo2 mo3 : Char) (ws1 day ws2 : List Char) (h1 h2 m1 m2 s1 s2 : Char)
    (ws3 host ws4 rest : List Char)
    (hmo1 : isUpperAZ mo1 = true) (hmo2 : isLowerAZ mo2 = true) (hmo3 : isLowerAZ mo3 = true)
    (hws1 : ws1 ≠ []) (hws1c : ∀ c ∈ ws1, pyIsSpace c = true)
    (hday : day ≠ []) (hdayl : day.length ≤ 2) (hdayc : ∀ c ∈ day, pyIsDigit c = true)
    (hws2 : ws2 ≠ []) (hws2c : ∀ c ∈ ws2, pyIsSpace c = true)
    (hh1 : pyIsDigit h1 = true) (hh2 : pyIsDigit h2 = true) (hm1 : pyIsDigit m1 = true)
    (hm2 : pyIsDigit m2 = true) (hs1 : pyIsDigit s1 = true) (hs2 : pyIsDigit s2 = true)
    (hws3 : ws3 ≠ []) (hws3c : ∀ c ∈ ws3, pyIsSpace c = true)
    (hhost : host ≠ []) (hhostc : ∀ c ∈ host, pyIsSpace c = false)
    (hws4 : ws4 ≠ []) (hws4c : ∀ c ∈ ws4, pyIsSpace c = true)
    (hrest : ∀ c ∈ rest, c ≠ '\n') (hresth : ∀ c, rest.head? = some c → pyIsSpace c = false) :
    (∀ app tail : List Char, rest = app ++ ':' :: tail → app ≠ [] →
      (∀ c ∈ app, pyIsSpace c = false ∧ c ≠ ':' ∧ c ≠ '[') →
      parse_syslog_message
        (mo1 :: mo2 :: mo3 ::
          (ws1 ++ (day ++ (ws2 ++ (h1 :: h2 :: ':' :: m1 :: m2 :: ':' :: s1 :: s2 ::
            (ws3 ++ (host ++ (ws4 ++ rest)))))))) =
        (host, app, tail.dropWhile pyIsSpace)) ∧
    (∀ app ds tail : List Char, rest = app ++ '[' :: (ds ++ ']' :: ':' :: tail) → app ≠ [] →
      (∀ c ∈ app, pyIsSpace c = false ∧ c ≠ ':' ∧ c ≠ '[') →
      ds ≠ [] → (∀ c ∈ ds, pyIsDigit c = true) →
      parse_syslog_message
        (mo1 :: mo2 :: mo3 ::
          (ws1 ++ (day ++ (ws2 ++ (h1 :: h2 :: ':' :: m1 :: m2 :: ':' :: s1 :: s2 ::
            (ws3 ++ (host ++ (ws4 ++ rest)))))))) =
        (host, app, tail.dropWhile pyIsSpace)) ∧
    (appMatch rest = none →
      parse_syslog_message
        (mo1 :: mo2 :: mo3 ::
          (ws1 ++ (day ++ (ws2 ++ (h1 :: h2 :: ':' :: m1 :: m2 :: ':' :: s1 :: s2 ::
            (ws3 ++ (host ++ (ws4 ++ rest)))))))) =
        (host, unknownS, rest)) := by
  have hmatch := rfc3164_eval mo1 mo2 mo3 ws1 day ws2 h1 h2 m1 m2 s1 s2 ws3 host ws4 rest
    hmo1 hmo2 hmo3 hws1 hws1c hday hdayl hdayc hws2 hws2c hh1 hh2 hm1 hm2 hs1 hs2
    hws3 hws3c hhost hhostc hws4 hws4c hrest hresth
  have hne1 : mo1 ≠ '1' := by
    intro h
    subst h
    exact absurd hmo1 (by decide)
  have hcond : ¬((mo1 :: mo2 :: mo3 ::
      (ws1 ++ (day ++ (ws2 ++ (h1 :: h2 :: ':' :: m1 :: m2 :: ':' :: s1 :: s2 ::
        (ws3 ++ (host ++ (ws4 ++ rest)))))))).take 2 = ['1', ' ']) := by
    intro h
    rw [show (mo1 :: mo2 :: mo3 ::
        (ws1 ++ (day ++ (ws2 ++ (h1 :: h2 :: ':' :: m1 :: m2 :: ':' :: s1 :: s2 ::
          (ws3 ++ (host ++ (ws4 ++ rest)))))))).take 2 = [mo1, mo2] from rfl] at h
    rw [List.cons.injEq] at h
    exact hne1 h.1
  refine ⟨?_, ?_, ?_⟩
  · intro app tail hdec hne hch
    have htail : ∀ c ∈ tail, c ≠ '\n' := by
      intro c hc
      exact hrest c (by rw [hdec]; exact List.mem_append_right _ (List.mem_cons_of_mem _ hc))
    have happ : appMatch rest = some (app, tail.dropWhile pyIsSpace) := by
      rw [hdec]
      exact appMatch_colon app tail hne hch htail
    unfold parse_syslog_message
    rw [if_neg hcond, hmatch]
    dsimp only
    rw [happ]
  · intro app ds tail hdec hne hch hds hdsc
    have htail : ∀ c ∈ tail, c ≠ '\n' := by
      intro c hc
      refine hrest c ?_
      rw [hdec]
      refine List.mem_append_right _ (List.mem_cons_of_mem _ ?_)
      exact List.mem_append_right _ (List.mem_cons_of_mem _ (List.mem_cons_of_mem _ hc))
    have happ : appMatch rest = some (app, tail.dropWhile pyIsSpace) := by
      rw [hdec]
      exact appMatch_pid app ds tail hne hch hds hdsc htail
    unfold parse_syslog_message
    rw [if_neg hcond, hmatch]
    dsimp only
    rw [happ]
  · intro happ
    unfold parse_syslog_message
    rw [if_neg hcond, hmatch]
    dsimp only
    rw [happ]

/-- Witness for C4: the spec's RFC 3164 example. -/
theorem rfc3164_parse_witness :
    parse_syslog_message (("Jan  5 10:00:00 myhost sshd[123]: login failed").toList) =
      (("myhost").toList, ("sshd").toList, ("login failed").toList) := by
  have h := (rfc3164_parse 'J' 'a' 'n' [' ', ' '] ['5'] [' '] '1' '0' '0' '0' '0' '0'
    [' '] (("myhost").toList) [' '] (("sshd[123]: login failed").toList)
    (by decide) (by decide) (by decide) (by decide) (by decide) (by decide) (by decide)
    (by decide) (by decide) (by decide) (by decide) (by decide) (by decide) (by decide)
    (by decide) (by decide) (by decide) (by decide) (by decide) (by decide) (by decide)
    (by decide) (by decide) (by decide)).2.1
    (("sshd").toList) (("123").toList) ((" login failed").toList)
    (by decide) (by decide) (by decide) (by decide) (by decide)
  exact h.trans (by decide)

/-! ### Claim C9 -/

theorem countWritten_update (n : Nat) (ph : Fin n → CommitPhase) (t : Fin n) (v : CommitPhase) :
    countWritten n (Function.update ph t v) + (if phaseWritten (ph t) then 1 else 0) =
      countWritten n ph + (if phaseWritten v then 1 else 0) := by
  unfold countWritten
  have hfun : (fun x => if phaseWritten (Function.update ph t v x) then (1 : Nat) else 0) =
      Function.update (fun x => if phaseWritten (ph x) then (1 : Nat) else 0) t
        (if phaseWritten v then 1 else 0) := by
    funext x
    by_cases hx : x = t
    · subst hx
      simp
    · simp [Function.update_noteq hx]
  rw [hfun, Finset.sum_update_of_mem (Finset.mem_univ t), Finset.sdiff_singleton_eq_erase]
  rw [← Finset.add_sum_erase _ _ (Finset.mem_univ t)]
  omega

theorem countWritten_all_done (n : Nat) (ph : Fin n → CommitPhase)
    (h : ∀ t, ph t = CommitPhase.done) : countWritten n ph = n := by
  unfold countWritten
  have : ∀ t : Fin n, (if phaseWritten (ph t) then (1 : Nat) else 0) = 1 := by
    intro t
    rw [h t]
    rfl
  rw [Finset.sum_congr rfl (fun t _ => this t)]
  simp

theorem sum_indicator_nodup (n : Nat) (l : List (Fin n)) (h : l.Nodup) :
    Finset.sum Finset.univ (fun t => if t ∈ l then (1 : Nat) else 0) = l.length := by
  have hfe : (fun t : Fin n => if t ∈ l then (1 : Nat) else 0) =
      fun t => if t ∈ l.toFinset then 1 else 0 := by
    funext t
    simp
  rw [hfe, Finset.sum_ite_mem, Finset.univ_inter, Finset.sum_const, smul_eq_mul, mul_one,
    List.toFinset_card_of_nodup h]

/-- The inductive invariant of the lock-protocol semantics: a thread inside
the critical section holds the lock (hence at most one is inside); the shared
counter equals the number of performed counter writes; a read value still
held in a register equals the current counter; and the alert list is the
(bounded) history of the appended entries, in append order. -/
structure LockInv (n : Nat) (entryOf : Fin n → Nat) (c : LockConfig n) : Prop where
  lockPhase : ∀ t, inCrit (c.phase t) = true → c.lock = some t
  countEq : c.count = countWritten n c.phase
  readVal : ∀ t r, c.phase t = CommitPhase.postRead r → r = c.count
  alertsEq : ∃ l : List (Fin n), l.Nodup ∧
    (∀ t, t ∈ l ↔ phaseAppended (c.phase t) = true) ∧
    c.alerts = lastN 100 (l.map entryOf)

theorem LockInv.mutex {n : Nat} {entryOf : Fin n → Nat} {c : LockConfig n}
    (inv : LockInv n entryOf c) {t t' : Fin n}
    (h1 : inCrit (c.phase t) = true) (h2 : inCrit (c.phase t') = true) : t = t' := by
  have e1 := inv.lockPhase t h1
  have e2 := inv.lockPhase t' h2
  rw [e1] at e2
  exact (Option.some.injEq .. ▸ e2 : t = t')

theorem lockInv_init (n : Nat) (entryOf : Fin n → Nat) :
    LockInv n entryOf (initLockConfig n) := by
  refine ⟨?_, ?_, ?_, ⟨[], List.nodup_nil, ?_, rfl⟩⟩
  · intro t h
    exact absurd h (by simp [initLockConfig, inCrit])
  · unfold initLockConfig countWritten
    simp [phaseWritten]
  · intro t r h
    exact absurd h (by simp [initLockConfig])
  · intro t
    simp [initLockConfig, phaseAppended]

theorem lockInv_step {n : Nat} {entryOf : Fin n → Nat} {c c' : LockConfig n}
    (inv : LockInv n entryOf c) (hstep : LockStep n entryOf c c') : LockInv n entryOf c' := by
  cases hstep with
  | acquire t hph hlock =>
    refine ⟨?_, ?_, ?_, ?_⟩
    · intro t' h'
      dsimp only at h' ⊢
      by_cases ht' : t' = t
      · subst ht'
        rfl
      · rw [Function.update_noteq ht'] at h'
        have := inv.lockPhase t' h'
        rw [hlock] at this
        exact Option.noConfusion this
    · dsimp only
      have hcu := countWritten_update n c.phase t CommitPhase.preRead
      rw [hph] at hcu
      simp [phaseWritten] at hcu
      rw [hcu]
      exact inv.countEq
    · intro t' r h'
      dsimp only at h' ⊢
      by_cases ht' : t' = t
      · subst ht'
        rw [Function.update_same] at h'
        exact CommitPhase.noConfusion h'
      · rw [Function.update_noteq ht'] at h'
        exact inv.readVal t' r h'
    · obtain ⟨l, hnd, hmem, halerts⟩ := inv.alertsEq
      refine ⟨l, hnd, ?_, halerts⟩
      intro t'
      dsimp only
      by_cases ht' : t' = t
      · subst ht'
        rw [Function.update_same, hmem t', hph]
        simp [phaseAppended]
      · rw [Function.update_noteq ht']
        exact hmem t'
  | readCount t hph =>
    refine ⟨?_, ?_, ?_, ?_⟩
    · intro t' h'
      dsimp only at h' ⊢
      by_cases ht' : t' = t
      · subst ht'
        exact inv.lockPhase t' (by rw [hph]; rfl)
      · rw [Function.update_noteq ht'] at h'
        exact inv.lockPhase t' h'
    · dsimp only
      have hcu := countWritten_update n c.phase t (CommitPhase.postRead c.count)
      rw [hph] at hcu
      simp [phaseWritten] at hcu
      rw [hcu]
      exact inv.countEq
    · intro t' r h'
      dsimp only at h' ⊢
      by_cases ht' : t' = t
      · subst ht'
        rw [Function.update_same] at h'
        injection h' with h''
        exact h''.symm
      · rw [Function.update_noteq ht'] at h'
        exact inv.readVal t' r h'
    · obtain ⟨l, hnd, hmem, halerts⟩ := inv.alertsEq
      refine ⟨l, hnd, ?_, halerts⟩
      intro t'
      dsimp only
      by_cases ht' : t' = t
      · subst ht'
        rw [Function.update_same, hmem t', hph]
        simp [phaseAppended]
      · rw [Function.update_noteq ht']
        exact hmem t'
  | writeCount t r hph =>
    have hr : r = c.count := inv.readVal t r hph
    refine ⟨?_, ?_, ?_, ?_⟩
    · intro t' h'
      dsimp only at h' ⊢
      by_cases ht' : t' = t
      · subst ht'
        exact inv.lockPhase t' (by rw [hph]; rfl)
      · rw [Function.update_noteq ht'] at h'
        exact inv.lockPhase t' h'
    · dsimp only
      have hcu := countWritten_update n c.phase t CommitPhase.postWrite
      rw [hph] at hcu
      simp [phaseWritten] at hcu
      rw [hr, inv.countEq]
      omega
    · intro t' r' h'
      dsimp only at h' ⊢
      by_cases ht' : t' = t
      · subst ht'
        rw [Function.update_same] at h'
        exact CommitPhase.noConfusion h'
      · rw [Function.update_noteq ht'] at h'
        exact absurd
          (inv.mutex (show inCrit (c.phase t') = true by rw [h']; rfl)
            (show inCrit (c.phase t) = true by rw [hph]; rfl)) ht'
    · obtain ⟨l, hnd, hmem, halerts⟩ := inv.alertsEq
      refine ⟨l, hnd, ?_, halerts⟩
      intro t'
      dsimp only
      by_cases ht' : t' = t
      · subst ht'
        rw [Function.update_same, hmem t', hph]
        simp [phaseAppended]
      · rw [Function.update_noteq ht']
        exact hmem t'
  | appendAlert t hph =>
    refine ⟨?_, ?_, ?_, ?_⟩
    · intro t' h'
      dsimp only at h' ⊢
      by_cases ht' : t' = t
      · subst ht'
        exact inv.lockPhase t' (by rw [hph]; rfl)
      · rw [Function.update_noteq ht'] at h'
        exact inv.lockPhase t' h'
    · dsimp only
      have hcu := countWritten_update n c.phase t CommitPhase.postAppend
      rw [hph] at hcu
      simp [phaseWritten] at hcu
      rw [hcu]
      exact inv.countEq
    · intro t' r' h'
      dsimp only at h' ⊢
      by_cases ht' : t' = t
      · subst ht'
        rw [Function.update_same] at h'
        exact CommitPhase.noConfusion h'
      · rw [Function.update_noteq ht'] at h'
        exact absurd
          (inv.mutex (show inCrit (c.phase t') = true by rw [h']; rfl)
            (show inCrit (c.phase t) = true by rw [hph]; rfl)) ht'
    · obtain ⟨l, hnd, hmem, halerts⟩ := inv.alertsEq
      have htnotin : t ∉ l := by
        rw [hmem t, hph]
        simp [phaseAppended]
      refine ⟨l ++ [t], ?_, ?_, ?_⟩
      · rw [List.nodup_append]
        refine ⟨hnd, List.nodup_singleton t, ?_⟩
        intro a ha hb
        rw [List.mem_singleton] at hb
        subst hb
        exact htnotin ha
      · intro t'
        dsimp only
        by_cases ht' : t' = t
        · subst ht'
          rw [Function.update_same]
          simp [phaseAppended]
        · rw [Function.update_noteq ht']
          simp only [List.mem_append, List.mem_singleton, ht', or_false]
          exact hmem t'
      · dsimp only
        rw [truncAlerts_eq_lastN, halerts, lastN_append_lastN, List.map_append]
        rfl
  | release t hph =>
    refine ⟨?_, ?_, ?_, ?_⟩
    · intro t' h'
      dsimp only at h' ⊢
      by_cases ht' : t' = t
      · subst ht'
        rw [Function.update_same] at h'
        exact absurd h' (by simp [inCrit])
      · rw [Function.update_noteq ht'] at h'
        exact absurd
          (inv.mutex (show inCrit (c.phase t') = true from h')
            (show inCrit (c.phase t) = true by rw [hph]; rfl)) ht'
    · dsimp only
      have hcu := countWritten_update n c.phase t CommitPhase.done
      rw [hph] at hcu
      simp [phaseWritten] at hcu
      rw [hcu]
      exact inv.countEq
    · intro t' r' h'
      dsimp only at h' ⊢
      by_cases ht' : t' = t
      · subst ht'
        rw [Function.update_same] at h'
        exact CommitPhase.noConfusion h'
      · rw [Function.update_noteq ht'] at h'
        exact absurd
          (inv.mutex (show inCrit (c.phase t') = true by rw [h']; rfl)
            (show inCrit (c.phase t) = true by rw [hph]; rfl)) ht'
    · obtain ⟨l, hnd, hmem, halerts⟩ := inv.alertsEq
      refine ⟨l, hnd, ?_, halerts⟩
      intro t'
      dsimp only
      by_cases ht' : t' = t
      · subst ht'
        rw [Function.update_same, hmem t', hph]
        simp [phaseAppended]
      · rw [Function.update_noteq ht']
        exact hmem t'

theorem lockInv_reachable (n : Nat) (entryOf : Fin n → Nat) (c : LockConfig n)
    (h : LockReachable n entryOf c) : LockInv n entryOf c := by
  unfold LockReachable at h
  induction h with
  | refl => exact lockInv_init n entryOf
  | tail hsteps hstep ih => exact lockInv_step ih hstep

/-- C9: under the interleaving semantics of the lock protocol (where only
`acquire` is gated by the lock and the critical-section operations are
individually interleavable), every terminated execution of `n` committing
threads ends with counter = n and an alert history containing each thread's
entry exactly once, in some serialization order, truncated to the last 100 —
no update is lost or duplicated; and whenever the lock is free (the only
moments at which a reader's scoped acquisition can proceed) the
counter/sequence pair is consistent: the counter equals the number of
completed commits whose entries form the alert history — no reader ever
observes a half-applied commit. -/
theorem lock_serialized (n : Nat) (entryOf : Fin n → Nat) :
    (∀ c : LockConfig n, LockReachable n entryOf c →
      (∀ t, c.phase t = CommitPhase.done) →
      c.count = n ∧ ∃ l : List (Fin n), l.Nodup ∧ (∀ t, t ∈ l) ∧
        c.alerts = lastN 100 (l.map entryOf)) ∧
    (∀ c : LockConfig n, LockReachable n entryOf c → c.lock = none →
      ∃ l : List (Fin n), l.Nodup ∧ c.count = l.length ∧
        c.alerts = lastN 100 (l.map entryOf)) := by
  constructor
  · intro c hreach hdone
    have inv := lockInv_reachable n entryOf c hreach
    obtain ⟨l, hnd, hmem, halerts⟩ := inv.alertsEq
    refine ⟨?_, l, hnd, ?_, halerts⟩
    · rw [inv.countEq]
      exact countWritten_all_done n c.phase hdone
    · intro t
      rw [hmem t, hdone t]
      rfl
  · intro c hreach hlock
    have inv := lockInv_reachable n entryOf c hreach
    obtain ⟨l, hnd, hmem, halerts⟩ := inv.alertsEq
    refine ⟨l, hnd, ?_, halerts⟩
    have hnotcrit : ∀ t, inCrit (c.phase t) = false := by
      intro t
      cases hx : inCrit (c.phase t) with
      | false => rfl
      | true =>
        have := inv.lockPhase t hx
        rw [hlock] at this
        exact Option.noConfusion this
    have hsame : ∀ t, (if phaseWritten (c.phase t) then (1 : Nat) else 0) =
        (if t ∈ l then 1 else 0) := by
      intro t
      rcases hp : c.phase t with _ | _ | r | _ | _ | _
      · have hout : t ∉ l := by
          rw [hmem t, hp]
          simp [phaseAppended]
        simp [phaseWritten, hout]
      · exact absurd (hnotcrit t) (by rw [hp]; simp [inCrit])
      · exact absurd (hnotcrit t) (by rw [hp]; simp [inCrit])
      · exact absurd (hnotcrit t) (by rw [hp]; simp [inCrit])
      · exact absurd (hnotcrit t) (by rw [hp]; simp [inCrit])
      · have hin : t ∈ l := by
          rw [hmem t, hp]
          rfl
        simp [phaseWritten, hin]
    rw [inv.countEq]
    unfold countWritten
    rw [Finset.sum_congr rfl (fun t _ => hsame t)]
    exact sum_indicator_nodup n l hnd

/-- Witness for C9: an explicit five-step execution of one committer thread
from the startup configuration to a terminated configuration, with counter 1
and exactly that thread's entry in the alert history. -/
theorem lock_serialized_witness :
    ∃ c : LockConfig 1, c.count = 1 ∧ ∃ l : List (Fin 1), l.Nodup ∧ (∀ t, t ∈ l) ∧
      c.alerts = lastN 100 (l.map fun _ => 37) := by
  have h := (lock_serialized 1 (fun _ => 37)).1 _
    (Relation.ReflTransGen.head (LockStep.acquire (initLockConfig 1) 0 rfl rfl)
      (Relation.ReflTransGen.head (LockStep.readCount _ 0 rfl)
        (Relation.ReflTransGen.head (LockStep.writeCount _ 0 0 rfl)
          (Relation.ReflTransGen.head (LockStep.appendAlert _ 0 rfl)
            (Relation.ReflTransGen.head (LockStep.release _ 0 rfl)
              Relation.ReflTransGen.refl)))))
    (by
      intro t
      have h0 : t = 0 := Subsingleton.elim t 0
      subst h0
      rfl)
  exact ⟨_, h⟩
